import Mathlib

/-!
Shallow embedding of the core pipeline of `src/process_data.py`
(Aadhaar Lifecycle Signal System): the Feature Deriver
(`feature_engineering`), the District Metrics Engine
(`calculate_district_metrics`), the Forecaster (`generate_forecast`) and
the Backtest Validator (`run_backtest_validation`).

Numeric cells are modelled exactly: counters are naturals, derived
quantities are rationals, and pandas float arithmetic (which yields NaN
and signed infinities instead of raising on division by zero) is modelled
by the `PVal` type below.  Dates are rationals (days); a `none` date is a
NaT.  Tables are lists of records; `groupby` is modelled as
deduplicated-key iteration with per-key sums (group contents and all the
properties proved here are insensitive to pandas' key ordering).
-/

/-- A pandas float cell: an exact rational, NaN, or a signed infinity. -/
inductive PVal where
  | num (q : ℚ)
  | nan
  | inf
  | ninf
deriving DecidableEq, Repr

namespace PVal

/-- NaN test. -/
def isNan : PVal → Bool
  | nan => true
  | _ => false

/-- IEEE addition as performed by numpy. -/
def padd : PVal → PVal → PVal
  | num a, num b => num (a + b)
  | nan, _ => nan
  | _, nan => nan
  | inf, ninf => nan
  | ninf, inf => nan
  | inf, _ => inf
  | _, inf => inf
  | ninf, _ => ninf
  | _, ninf => ninf

/-- IEEE negation. -/
def pneg : PVal → PVal
  | num a => num (-a)
  | nan => nan
  | inf => ninf
  | ninf => inf

/-- IEEE subtraction. -/
def psub (a b : PVal) : PVal := padd a (pneg b)

/-- IEEE multiplication (inf * 0 = NaN). -/
def pmul : PVal → PVal → PVal
  | num a, num b => num (a * b)
  | nan, _ => nan
  | _, nan => nan
  | inf, num b => if 0 < b then inf else if b < 0 then ninf else nan
  | num a, inf => if 0 < a then inf else if a < 0 then ninf else nan
  | ninf, num b => if 0 < b then ninf else if b < 0 then inf else nan
  | num a, ninf => if 0 < a then ninf else if a < 0 then inf else nan
  | inf, inf => inf
  | inf, ninf => ninf
  | ninf, inf => ninf
  | ninf, ninf => inf

/-- IEEE division as performed by numpy true division: finite / 0 gives a
signed infinity (NaN for 0 / 0), never an exception. -/
def pdiv : PVal → PVal → PVal
  | num a, num b =>
      if b = 0 then (if 0 < a then inf else if a < 0 then ninf else nan)
      else num (a / b)
  | nan, _ => nan
  | _, nan => nan
  | num _, inf => num 0
  | num _, ninf => num 0
  | inf, num b => if b < 0 then ninf else inf
  | ninf, num b => if b < 0 then inf else ninf
  | inf, inf => nan
  | inf, ninf => nan
  | ninf, inf => nan
  | ninf, ninf => nan

/-- IEEE strict less-than: any comparison with NaN is false. -/
def plt : PVal → PVal → Bool
  | num a, num b => decide (a < b)
  | nan, _ => false
  | _, nan => false
  | inf, _ => false
  | ninf, ninf => false
  | ninf, _ => true
  | _, inf => true
  | _, ninf => false

/-- IEEE less-or-equal: any comparison with NaN is false. -/
def ple : PVal → PVal → Bool
  | num a, num b => decide (a ≤ b)
  | nan, _ => false
  | _, nan => false
  | inf, inf => true
  | inf, _ => false
  | ninf, _ => true
  | num _, inf => true
  | num _, ninf => false

/-- IEEE strict greater-than. -/
def pgt (a b : PVal) : Bool := plt b a

/-- IEEE greater-or-equal. -/
def pge (a b : PVal) : Bool := ple b a

/-- Python's builtin `min(a, b)`: returns `b` exactly when `b < a`
(so the first argument when either comparison involves NaN). -/
def pymin (a b : PVal) : PVal := if plt b a then b else a

/-- Python's builtin `max(a, b)`: returns `b` exactly when `b > a`. -/
def pymax (a b : PVal) : PVal := if plt a b then b else a

/-- Maximum of a NaN-free list (NaN if empty). -/
def pmaxAux : List PVal → PVal
  | [] => nan
  | y :: ys => ys.foldl (fun acc v => if plt acc v then v else acc) y

/-- pandas `Series.max()`: NaN entries are skipped; the maximum of an
empty (or all-NaN) series is NaN. -/
def pmaxList (xs : List PVal) : PVal := pmaxAux (xs.filter (fun x => !x.isNan))

/-- Mean of a NaN-free list (NaN if empty): sum divided by count. -/
def pmeanAux : List PVal → PVal
  | [] => nan
  | y :: ys => pdiv ((y :: ys).foldl padd (num 0)) (num ((y :: ys).length : ℚ))

/-- pandas `Series.mean()`: NaN entries are skipped; the mean of an empty
(or all-NaN) series is NaN.  Infinities participate in the sum. -/
def pmeanList (xs : List PVal) : PVal := pmeanAux (xs.filter (fun x => !x.isNan))

end PVal

/-- Insert into a list sorted by the boolean relation `le` (stable). -/
def insertLe {α : Type} (le : α → α → Bool) (x : α) : List α → List α
  | [] => [x]
  | y :: ys => if le x y then x :: y :: ys else y :: insertLe le x ys

/-- Stable insertion sort by the boolean relation `le`; models
`sort_values` (tie order in pandas is unspecified, and no property proved
here depends on it). -/
def sortLe {α : Type} (le : α → α → Bool) : List α → List α
  | [] => []
  | x :: xs => insertLe le x (sortLe le xs)

/-- pandas quantile with linear interpolation (default) at level `p`:
drop NaNs, sort ascending, and interpolate `x[i] + (h - i) * (x[i+1] - x[i])`
at `h = p * (n - 1)`. -/
def quantileList (p : ℚ) (xs : List PVal) : PVal :=
  let ys := sortLe PVal.ple (xs.filter (fun x => !x.isNan))
  if ys.length = 0 then PVal.nan
  else
    let h : ℚ := p * ((ys.length : ℚ) - 1)
    let i : ℕ := (⌊h⌋).toNat
    match ys[i]?, ys[i+1]? with
    | some a, some b => PVal.padd a (PVal.pmul (PVal.psub b a) (PVal.num (h - (i : ℚ))))
    | some a, none => a
    | none, _ => PVal.nan

/-- A raw biometric record (`state`, `district`, `date`, and the two age
band counters).  A `none` date is a NaT; counters are non-negative. -/
structure BioRaw where
  state : String
  district : String
  date : Option ℚ
  bio_age_5_17 : ℕ
  bio_age_17_ : ℕ
deriving DecidableEq, Repr

/-- A raw demographic record. -/
structure DemoRaw where
  state : String
  district : String
  date : Option ℚ
  demo_age_5_17 : ℕ
  demo_age_17_ : ℕ
deriving DecidableEq, Repr

/-- An enrolment record with the three age-band counters. -/
structure EnrolRow where
  state : String
  district : String
  date : Option ℚ
  age_0_5 : ℕ
  age_5_17 : ℕ
  age_18_greater : ℕ
deriving DecidableEq, Repr

/-- A biometric record after `feature_engineering` added the
`total_biometric_updates` and `child_teen_update_share` columns. -/
structure BioFRow where
  state : String
  district : String
  date : Option ℚ
  bio_age_5_17 : ℕ
  bio_age_17_ : ℕ
  total_biometric_updates : ℕ
  child_teen_update_share : PVal
deriving DecidableEq, Repr

/-- A demographic record after `feature_engineering`. -/
structure DemoFRow where
  state : String
  district : String
  date : Option ℚ
  demo_age_5_17 : ℕ
  demo_age_17_ : ℕ
  total_demographic_updates : ℕ
  adult_update_share : PVal
deriving DecidableEq, Repr

/-- `feature_engineering` from `process_data.py`: on a non-empty biometric
table add `total_biometric_updates = bio_age_5_17 + bio_age_17_` and
`child_teen_update_share = bio_age_5_17 / total_biometric_updates`
(a 0/0 share is NaN, as in pandas); symmetrically for the demographic
table; the enrolment table is returned untouched.  An empty table is
passed through with no columns added (modelled as the empty list of
feature rows). -/
def feature_engineering (bio : List BioRaw) (demo : List DemoRaw) (enrol : List EnrolRow) :
    List BioFRow × List DemoFRow × List EnrolRow :=
  let bioF :=
    if bio.isEmpty then []
    else bio.map (fun r =>
      { state := r.state, district := r.district, date := r.date,
        bio_age_5_17 := r.bio_age_5_17, bio_age_17_ := r.bio_age_17_,
        total_biometric_updates := r.bio_age_5_17 + r.bio_age_17_,
        child_teen_update_share :=
          PVal.pdiv (PVal.num r.bio_age_5_17) (PVal.num (r.bio_age_5_17 + r.bio_age_17_)) })
  let demoF :=
    if demo.isEmpty then []
    else demo.map (fun r =>
      { state := r.state, district := r.district, date := r.date,
        demo_age_5_17 := r.demo_age_5_17, demo_age_17_ := r.demo_age_17_,
        total_demographic_updates := r.demo_age_5_17 + r.demo_age_17_,
        adult_update_share :=
          PVal.pdiv (PVal.num r.demo_age_17_) (PVal.num (r.demo_age_5_17 + r.demo_age_17_)) })
  (bioF, demoF, enrol)

/-- A (state, district) group key. -/
abbrev Key := String × String

/-- Key of a featured biometric row. -/
def keyOfB (r : BioFRow) : Key := (r.state, r.district)

/-- Key of an enrolment row. -/
def keyOfE (r : EnrolRow) : Key := (r.state, r.district)

/-- Distinct group keys of a table, in order of first appearance
(pandas sorts group keys; every property proved here is insensitive to
the key order, only to the key set). -/
def keysOf {α : Type} (key : α → Key) (rows : List α) : List Key :=
  rows.foldl (fun acc r => if key r ∈ acc then acc else acc ++ [key r]) []

/-- Grouped sum of `total_biometric_updates` for one key
(`bio_df.groupby(['state','district'])['total_biometric_updates'].sum()`). -/
def bioSum (bio : List BioFRow) (k : Key) : ℕ :=
  ((bio.filter (fun r => keyOfB r = k)).map (fun r => r.total_biometric_updates)).sum

/-- Grouped `age_0_5 + age_5_17 + age_18_greater` enrolment total for one
key (sum each column over the group, then add the three sums). -/
def enrolTotal (enrol : List EnrolRow) (k : Key) : ℕ :=
  ((enrol.filter (fun r => keyOfE r = k)).map (fun r => r.age_0_5)).sum +
  ((enrol.filter (fun r => keyOfE r = k)).map (fun r => r.age_5_17)).sum +
  ((enrol.filter (fun r => keyOfE r = k)).map (fun r => r.age_18_greater)).sum

/-- The non-NaT dates of a biometric table. -/
def datedDates (bio : List BioFRow) : List ℚ := bio.filterMap (fun r => r.date)

/-- `bio_sorted['date'].mean()`: the mean of the non-NaT dates of the
whole table (NaT when there are none), the single global split point of
the growth-rate computation. -/
def meanDate (bio : List BioFRow) : Option ℚ :=
  let ds := datedDates bio
  if ds.isEmpty then none else some (ds.sum / (ds.length : ℚ))

/-- `date > mid`: false when either side is NaT. -/
def dGT (d m : Option ℚ) : Bool :=
  match d, m with
  | some d, some m => decide (m < d)
  | _, _ => false

/-- `date <= mid`: false when either side is NaT. -/
def dLE (d m : Option ℚ) : Bool :=
  match d, m with
  | some d, some m => decide (d ≤ m)
  | _, _ => false

/-- Updates of district `k` dated strictly after the split point `mid`. -/
def districtRecentAt (bio : List BioFRow) (mid : Option ℚ) (k : Key) : ℕ :=
  ((bio.filter (fun r => decide (keyOfB r = k) && dGT r.date mid)).map
    (fun r => r.total_biometric_updates)).sum

/-- Updates of district `k` dated strictly after the global mean date. -/
def districtRecent (bio : List BioFRow) (k : Key) : ℕ :=
  districtRecentAt bio (meanDate bio) k

/-- Updates of district `k` dated at or before the split point `mid`. -/
def districtPastAt (bio : List BioFRow) (mid : Option ℚ) (k : Key) : ℕ :=
  ((bio.filter (fun r => decide (keyOfB r = k) && dLE r.date mid)).map
    (fun r => r.total_biometric_updates)).sum

/-- Updates of district `k` dated at or before the global mean date. -/
def districtPast (bio : List BioFRow) (k : Key) : ℕ :=
  districtPastAt bio (meanDate bio) k

/-- Per-district growth rate: `(recent - past) / past` when `past > 0`,
else `0.0`. -/
def districtGrowth (bio : List BioFRow) (k : Key) : ℚ :=
  let recent := districtRecent bio k
  let past := districtPast bio k
  if 0 < past then ((recent : ℚ) - (past : ℚ)) / (past : ℚ) else 0

/-- `growth_rate.clip(lower=-0.5, upper=2.0)`. -/
def clipQ (g : ℚ) : ℚ := min 2 (max (-(1/2 : ℚ)) g)

/-- One row of the District Metrics Engine output. -/
structure MetricRow where
  state : String
  district : String
  total_biometric_updates : ℕ
  total_enrolment : ℚ
  growth_rate : ℚ
  update_density : PVal
  growth_multiplier : ℚ
  AUPS : PVal
  AUPS_Normalized : PVal
deriving DecidableEq, Repr

/-- The pre-normalization metric row of one district: aggregated updates;
enrolment total from the left merge (`fillna(1)` turns only a *missing*
district into 1 — a present all-zero group keeps 0); growth rate (0 when
the table has no date column); `update_density = updates / enrolment`;
`growth_multiplier = 1 + clip(growth)`;
`AUPS = density * multiplier * 1000`. -/
def baseRow (hasDate : Bool) (bio : List BioFRow) (enrol : List EnrolRow) (k : Key) : MetricRow :=
  let tbu := bioSum bio k
  let te : ℚ := if k ∈ keysOf keyOfE enrol then (enrolTotal enrol k : ℚ) else 1
  let g : ℚ := if hasDate then districtGrowth bio k else 0
  let gm : ℚ := 1 + clipQ g
  let dens := PVal.pdiv (PVal.num (tbu : ℚ)) (PVal.num te)
  { state := k.1, district := k.2, total_biometric_updates := tbu, total_enrolment := te,
    growth_rate := g, update_density := dens, growth_multiplier := gm,
    AUPS := PVal.pmul (PVal.pmul dens (PVal.num gm)) (PVal.num 1000),
    AUPS_Normalized := PVal.num 0 }

/-- All pre-normalization metric rows, one per biometric group key. -/
def metricsBase (hasDate : Bool) (bio : List BioFRow) (enrol : List EnrolRow) : List MetricRow :=
  (keysOf keyOfB bio).map (baseRow hasDate bio enrol)

/-- `metrics.sort_values('AUPS', ascending=False)` (NaN scores last). -/
def sortByAUPSDesc (l : List MetricRow) : List MetricRow :=
  sortLe (fun a b =>
    if b.AUPS.isNan then true
    else if a.AUPS.isNan then false
    else PVal.ple b.AUPS a.AUPS) l

/-- `calculate_district_metrics` from `process_data.py`: aggregate, left
merge with `fillna(1)`, per-district growth against the global mean date,
AUPS, sort descending, then normalize by the maximum raw AUPS when it is
positive and set every score to 0 otherwise.  (The corner where pandas
would raise on merging an empty grouped frame - an empty `bio` that still
has a date column, unreachable through the loader - is modelled as the
empty output.) -/
def calculate_district_metrics (hasDate : Bool) (bio : List BioFRow) (enrol : List EnrolRow) :
    List MetricRow :=
  let base := sortByAUPSDesc (metricsBase hasDate bio enrol)
  let mx := PVal.pmaxList (base.map (fun r => r.AUPS))
  if PVal.pgt mx (PVal.num 0) then
    base.map (fun r =>
      { r with AUPS_Normalized := PVal.pmul (PVal.pdiv r.AUPS mx) (PVal.num 100) })
  else
    base.map (fun r => { r with AUPS_Normalized := PVal.num 0 })

/-- The maximum raw AUPS of the engine's output
(`metrics['AUPS'].max()`). -/
def maxAUPS (hasDate : Bool) (bio : List BioFRow) (enrol : List EnrolRow) : PVal :=
  PVal.pmaxList ((sortByAUPSDesc (metricsBase hasDate bio enrol)).map (fun r => r.AUPS))

/-- A produced forecast point (`date`, `forecast`, `lower_ci`,
`upper_ci`); the bound fields come from Python's `int()` truncation. -/
structure ForecastPoint where
  date : ℚ
  forecast : ℤ
  lower_ci : ℤ
  upper_ci : ℤ
deriving DecidableEq, Repr

/-- Python's `int()` on a finite float: truncation toward zero. -/
def truncQ (q : ℚ) : ℤ := if 0 ≤ q then ⌊q⌋ else -(⌊-q⌋)

/-- Python's `int()` on a pandas float: fails (ValueError) on NaN and on
the infinities. -/
def pint : PVal → Option ℤ
  | PVal.num q => some (truncQ q)
  | _ => none

/-- `uncertainty = 0.05 + (0.01 * i)`: starts at 5 percent and adds one
percent per forecast day. -/
def uncertainty (i : ℕ) : ℚ := 5 / 100 + (1 / 100) * (i : ℚ)

/-- First-appearance deduplication. -/
def dedup {α : Type} [DecidableEq α] (l : List α) : List α :=
  l.foldl (fun acc x => if x ∈ acc then acc else acc ++ [x]) []

/-- The distinct non-NaT dates of a table, ascending
(`groupby('date')` drops NaT keys; then `sort_values('date')`). -/
def dailyDates (bio : List BioFRow) : List ℚ :=
  sortLe (fun a b => decide (a ≤ b)) (dedup (bio.filterMap (fun r => r.date)))

/-- Total updates on one date. -/
def dailySum (bio : List BioFRow) (d : ℚ) : ℕ :=
  ((bio.filter (fun r => r.date = some d)).map (fun r => r.total_biometric_updates)).sum

/-- The daily series: one `(date, total_biometric_updates)` per distinct
date, ascending. -/
def dailyTotals (bio : List BioFRow) : List (ℚ × ℕ) :=
  (dailyDates bio).map (fun d => (d, dailySum bio d))

/-- `daily.tail(14)`. -/
def last14 (daily : List (ℚ × ℕ)) : List (ℚ × ℕ) := daily.drop (daily.length - 14)

/-- Helper of `pctChanges`: pairwise `x[i] / x[i-1] - 1`. -/
def pctGo (prev : ℕ) : List ℕ → List PVal
  | [] => []
  | v :: vs =>
      PVal.psub (PVal.pdiv (PVal.num (v : ℚ)) (PVal.num (prev : ℚ))) (PVal.num 1) :: pctGo v vs

/-- pandas `pct_change()`: NaN for the first element, then
`x[i] / x[i-1] - 1` (float division: a 0-over-0 step is NaN and a
positive-over-0 step is +inf). -/
def pctChanges : List ℕ → List PVal
  | [] => []
  | v :: vs => PVal.nan :: pctGo v vs

/-- `avg_growth`: the mean of the day-over-day percentage changes of the
trailing 14 daily totals (NaN entries skipped, as pandas `mean()` does). -/
def avgGrowthOf (bio : List BioFRow) : PVal :=
  PVal.pmeanList (pctChanges ((last14 (dailyTotals bio)).map (fun x => x.2)))

/-- `growth_factor = 1 + max(min(avg_growth, 0.05), -0.05)` with Python's
builtin `min`/`max` (which pass a NaN first argument through). -/
def growthFactorOf (bio : List BioFRow) : PVal :=
  PVal.padd (PVal.num 1)
    (PVal.pymax (PVal.pymin (avgGrowthOf bio) (PVal.num (5 / 100))) (PVal.num (-(5 / 100))))

/-- The last value of the trailing window (`.iloc[-1]`). -/
def lastValOf (bio : List BioFRow) : ℕ :=
  (((last14 (dailyTotals bio)).map (fun x => x.2)).getLast?).getD 0

/-- The last date of the trailing window (`.iloc[-1]`). -/
def lastDateOf (bio : List BioFRow) : ℚ :=
  (((last14 (dailyTotals bio)).map (fun x => x.1)).getLast?).getD 0

/-- The forecast loop: for step `i` (starting at 1) multiply the running
value by the growth factor, emit
`(last_date + i, int(v), int(v * (1 - u)), int(v * (1 + u)))` with
`u = uncertainty i`, for `rem` remaining steps.  A NaN or infinite
running value makes Python's `int()` raise ValueError, modelled as
`Except.error ()`. -/
def forecastSteps (gf : PVal) (lastDate : ℚ) : ℕ → ℕ → PVal → Except Unit (List ForecastPoint)
  | _, 0, _ => Except.ok []
  | i, rem + 1, cv =>
      let cv2 := PVal.pmul cv gf
      match pint cv2 with
      | none => Except.error ()
      | some f =>
          let u := uncertainty i
          match pint (PVal.pmul cv2 (PVal.num (1 - u))), pint (PVal.pmul cv2 (PVal.num (1 + u))) with
          | some lo, some hi =>
              match forecastSteps gf lastDate (i + 1) rem cv2 with
              | Except.ok rest =>
                  Except.ok ({ date := lastDate + (i : ℚ), forecast := f,
                               lower_ci := lo, upper_ci := hi } :: rest)
              | Except.error e => Except.error e
          | _, _ => Except.error ()

/-- The optional state restriction at the top of `generate_forecast`
(`df = df[df['state'] == state]`); `stateF = none` is the `state="All"`
default. -/
def stateFilter (stateF : Option String) (bio : List BioFRow) : List BioFRow :=
  match stateF with
  | some s => bio.filter (fun r => r.state = s)
  | none => bio

/-- `generate_forecast` from `process_data.py`: optional state filter;
empty result when the (filtered) table is empty or has no date column or
fewer than 14 distinct dated daily totals; otherwise `days` compounded
points from the capped mean growth of the trailing 14-day window. -/
def generate_forecast (hasDate : Bool) (bio : List BioFRow) (stateF : Option String) (days : ℕ) :
    Except Unit (List ForecastPoint) :=
  let df := stateFilter stateF bio
  if df.isEmpty || !hasDate then Except.ok []
  else if (last14 (dailyTotals df)).length < 14 then Except.ok []
  else forecastSteps (growthFactorOf df) (lastDateOf df) 1 days (PVal.num (lastValOf df : ℚ))

/-- The Backtest Validator's success record
(`is_valid`, `stressed_avg_t2`, `normal_avg_t2`, `lift`). -/
structure ValidationResult where
  is_valid : Bool
  stressed_avg_t2 : PVal
  normal_avg_t2 : PVal
  lift : PVal
deriving DecidableEq, Repr

/-- The three shapes `run_backtest_validation` can return: the
"No date column" record, the "Insufficient data split" record, or a
`ValidationResult`. -/
inductive BacktestOutcome where
  | noDate
  | insufficientSplit
  | result (r : ValidationResult)
deriving DecidableEq, Repr

/-- `bio_df.sort_values('date')` with NaT rows last. -/
def sortByDate (bio : List BioFRow) : List BioFRow :=
  sortLe (fun a b =>
    match a.date, b.date with
    | some x, some y => decide (x ≤ y)
    | some _, none => true
    | none, some _ => false
    | none, none => true) bio

/-- The earlier half T1 of the date-sorted biometric table
(`iloc[:mid]`, `mid = len // 2`). -/
def t1Of (bio : List BioFRow) : List BioFRow :=
  (sortByDate bio).take ((sortByDate bio).length / 2)

/-- The later half T2 (`iloc[mid:]`). -/
def t2Of (bio : List BioFRow) : List BioFRow :=
  (sortByDate bio).drop ((sortByDate bio).length / 2)

/-- The District Metrics Engine output on T1 (T1 inherits the date
column) joined with the full enrolment table. -/
def t1MetricsOf (bio : List BioFRow) (enrol : List EnrolRow) : List MetricRow :=
  calculate_district_metrics true (t1Of bio) enrol

/-- The 80th percentile of T1 AUPS (`.quantile(0.8)`). -/
def t1Threshold (bio : List BioFRow) (enrol : List EnrolRow) : PVal :=
  quantileList (8 / 10) ((t1MetricsOf bio enrol).map (fun r => r.AUPS))

/-- The stressed set: (state, district) keys of T1 rows whose AUPS is at
or above the threshold. -/
def stressedSet (bio : List BioFRow) (enrol : List EnrolRow) : List Key :=
  ((t1MetricsOf bio enrol).filter (fun r => PVal.pge r.AUPS (t1Threshold bio enrol))).map
    (fun r => (r.state, r.district))

/-- T2 per-district total volumes for districts in the stressed set
(the `_merge == 'both'` rows of the indicator left merge). -/
def t2StressedVols (bio : List BioFRow) (enrol : List EnrolRow) : List PVal :=
  ((keysOf keyOfB (t2Of bio)).filter (fun k => decide (k ∈ stressedSet bio enrol))).map
    (fun k => PVal.num (bioSum (t2Of bio) k : ℚ))

/-- T2 per-district total volumes for districts outside the stressed set
(the `_merge == 'left_only'` rows). -/
def t2NormalVols (bio : List BioFRow) (enrol : List EnrolRow) : List PVal :=
  ((keysOf keyOfB (t2Of bio)).filter (fun k => !(decide (k ∈ stressedSet bio enrol)))).map
    (fun k => PVal.num (bioSum (t2Of bio) k : ℚ))

/-- `run_backtest_validation` from `process_data.py`: require a date
column; sort by date and split at the midpoint row index; require both
halves non-empty; compute T1 AUPS, the 80th percentile threshold and the
stressed set; compare mean T2 volume of stressed vs normal districts;
`lift` is the ratio of the two means when the normal mean is positive and
1.0 otherwise. -/
def run_backtest_validation (hasDate : Bool) (bio : List BioFRow) (enrol : List EnrolRow) :
    BacktestOutcome :=
  if !hasDate then BacktestOutcome.noDate
  else
    let srt := sortByDate bio
    let mid := srt.length / 2
    let t1 := srt.take mid
    let t2 := srt.drop mid
    if t1.isEmpty || t2.isEmpty then BacktestOutcome.insufficientSplit
    else
      let t1m := calculate_district_metrics true t1 enrol
      let threshold := quantileList (8 / 10) (t1m.map (fun r => r.AUPS))
      let stressed : List Key := (t1m.filter (fun r => PVal.pge r.AUPS threshold)).map
        (fun r => (r.state, r.district))
      let t2keys := keysOf keyOfB t2
      let sVols := (t2keys.filter (fun k => decide (k ∈ stressed))).map
        (fun k => PVal.num (bioSum t2 k : ℚ))
      let nVols := (t2keys.filter (fun k => !(decide (k ∈ stressed)))).map
        (fun k => PVal.num (bioSum t2 k : ℚ))
      let sAvg := PVal.pmeanList sVols
      let nAvg := PVal.pmeanList nVols
      BacktestOutcome.result
        { is_valid := PVal.pgt sAvg nAvg,
          stressed_avg_t2 := sAvg,
          normal_avg_t2 := nAvg,
          lift := if PVal.pgt nAvg (PVal.num 0) then PVal.pdiv sAvg nAvg else PVal.num 1 }

/-- Concrete biometric feature row used by the witness inputs below; it
is exactly the `feature_engineering` image of a raw row whose age bands
are `(v, 0)`. -/
def sampleB (s d : String) (dt : Option ℚ) (v : ℕ) : BioFRow :=
  { state := s, district := d, date := dt, bio_age_5_17 := v, bio_age_17_ := 0,
    total_biometric_updates := v,
    child_teen_update_share := PVal.pdiv (PVal.num (v : ℚ)) (PVal.num (v : ℚ)) }

/-- Concrete enrolment row used by the witness inputs below. -/
def sampleE (s d : String) (a b c : ℕ) : EnrolRow :=
  { state := s, district := d, date := none, age_0_5 := a, age_5_17 := b, age_18_greater := c }

/-- Witness input: one district with rows on days 0 and 2. -/
def c1bio : List BioFRow := [sampleB "S" "A" (some 0) 10, sampleB "S" "A" (some 2) 30]

/-- Witness input: enrolment 1+1+1 for the district of `c1bio`. -/
def c1enrol : List EnrolRow := [sampleE "S" "A" 1 1 1]

/-- The pre-normalization metric row the engine computes on
`c1bio`/`c1enrol`. -/
def c1base : MetricRow :=
  { state := "S", district := "A", total_biometric_updates := 40, total_enrolment := 3,
    growth_rate := 2, update_density := PVal.num (40 / 3), growth_multiplier := 3,
    AUPS := PVal.num 40000, AUPS_Normalized := PVal.num 0 }

/-- The single metric row the engine produces on `c1bio`/`c1enrol`. -/
def c1row : MetricRow :=
  { state := "S", district := "A", total_biometric_updates := 40, total_enrolment := 3,
    growth_rate := 2, update_density := PVal.num (40 / 3), growth_multiplier := 3,
    AUPS := PVal.num 40000, AUPS_Normalized := PVal.num 100 }

/-- Counterexample input: a district present in enrolment with an
all-zero enrolment group. -/
def c2bio : List BioFRow := [sampleB "S" "A" none 60]

/-- Counterexample input: the all-zero enrolment group. -/
def c2enrol : List EnrolRow := [sampleE "S" "A" 0 0 0]

/-- Witness input: a district absent from the enrolment table. -/
def c2wbio : List BioFRow := [sampleB "T" "B" none 8]

/-- The single metric row the engine produces on `c2wbio` with an empty
enrolment table. -/
def c2wrow : MetricRow :=
  { state := "T", district := "B", total_biometric_updates := 8, total_enrolment := 1,
    growth_rate := 0, update_density := PVal.num 8, growth_multiplier := 1,
    AUPS := PVal.num 8000, AUPS_Normalized := PVal.num 100 }

/-- Counterexample input for the AUPS_Normalized range claim: positive
updates over an all-zero enrolment group give an infinite density. -/
def c3bio : List BioFRow := [sampleB "U" "C" none 60]

/-- Counterexample input: the all-zero enrolment group of `c3bio`. -/
def c3enrol : List EnrolRow := [sampleE "U" "C" 0 0 0]

/-- Witness input: positive enrolment totals everywhere. -/
def c3wbio : List BioFRow := [sampleB "S" "A" none 60]

/-- Witness input: enrolment 10+10+10. -/
def c3wenrol : List EnrolRow := [sampleE "S" "A" 10 10 10]

/-- The pre-normalization metric row on `c3bio`/`c3enrol`: the division
by the zero enrolment total gives an infinite density. -/
def c3base : MetricRow :=
  { state := "U", district := "C", total_biometric_updates := 60, total_enrolment := 0,
    growth_rate := 0, update_density := PVal.inf, growth_multiplier := 1,
    AUPS := PVal.inf, AUPS_Normalized := PVal.num 0 }

/-- 14 dated all-zero rows (days 0 to 13) of one district: a forecast
window whose day-over-day percentage changes are all NaN. -/
def zb14 : List BioFRow :=
  [sampleB "S" "A" (some 0) 0, sampleB "S" "A" (some 1) 0, sampleB "S" "A" (some 2) 0,
   sampleB "S" "A" (some 3) 0, sampleB "S" "A" (some 4) 0, sampleB "S" "A" (some 5) 0,
   sampleB "S" "A" (some 6) 0, sampleB "S" "A" (some 7) 0, sampleB "S" "A" (some 8) 0,
   sampleB "S" "A" (some 9) 0, sampleB "S" "A" (some 10) 0, sampleB "S" "A" (some 11) 0,
   sampleB "S" "A" (some 12) 0, sampleB "S" "A" (some 13) 0]

/-- 15 dated all-zero rows (days 0 to 14) of one district: more than 14
distinct dated daily totals, with a trailing window that is all zero. -/
def zb15 : List BioFRow :=
  [sampleB "S" "A" (some 0) 0, sampleB "S" "A" (some 1) 0, sampleB "S" "A" (some 2) 0,
   sampleB "S" "A" (some 3) 0, sampleB "S" "A" (some 4) 0, sampleB "S" "A" (some 5) 0,
   sampleB "S" "A" (some 6) 0, sampleB "S" "A" (some 7) 0, sampleB "S" "A" (some 8) 0,
   sampleB "S" "A" (some 9) 0, sampleB "S" "A" (some 10) 0, sampleB "S" "A" (some 11) 0,
   sampleB "S" "A" (some 12) 0, sampleB "S" "A" (some 13) 0, sampleB "S" "A" (some 14) 0]

/-- 14 dated rows of one district with a constant daily total of 100
(days 0 to 13): the constant-window example of the specification. -/
def cb14 : List BioFRow :=
  [sampleB "S" "A" (some 0) 100, sampleB "S" "A" (some 1) 100, sampleB "S" "A" (some 2) 100,
   sampleB "S" "A" (some 3) 100, sampleB "S" "A" (some 4) 100, sampleB "S" "A" (some 5) 100,
   sampleB "S" "A" (some 6) 100, sampleB "S" "A" (some 7) 100, sampleB "S" "A" (some 8) 100,
   sampleB "S" "A" (some 9) 100, sampleB "S" "A" (some 10) 100, sampleB "S" "A" (some 11) 100,
   sampleB "S" "A" (some 12) 100, sampleB "S" "A" (some 13) 100]

/-- Witness input for the backtest: two districts, one dated row each;
T1 holds district A, T2 holds district B. -/
def btbio : List BioFRow := [sampleB "S" "A" (some 0) 5, sampleB "S" "B" (some 1) 7]

/-- Witness input for the backtest: enrolment only for district A. -/
def btenrol : List EnrolRow := [sampleE "S" "A" 10 0 0]

/-- The pre-normalization T1 metric row of the backtest witness input:
growth `(0 - 5)/5 = -1` clips to `-0.5`, so the multiplier is `0.5` and
`AUPS = (5/10) * 0.5 * 1000 = 250`. -/
def btrow0 : MetricRow :=
  { state := "S", district := "A", total_biometric_updates := 5, total_enrolment := 10,
    growth_rate := -1, update_density := PVal.num (1 / 2), growth_multiplier := 1 / 2,
    AUPS := PVal.num 250, AUPS_Normalized := PVal.num 0 }

/-- The normalized T1 metric row of the backtest witness input. -/
def btrow : MetricRow :=
  { state := "S", district := "A", total_biometric_updates := 5, total_enrolment := 10,
    growth_rate := -1, update_density := PVal.num (1 / 2), growth_multiplier := 1 / 2,
    AUPS := PVal.num 250, AUPS_Normalized := PVal.num 100 }

lemma mem_insertLe {α : Type} (le : α → α → Bool) (x a : α) :
    ∀ l : List α, a ∈ insertLe le x l ↔ a = x ∨ a ∈ l := by
  intro l
  induction l with
  | nil => simp [insertLe]
  | cons y ys ih =>
      by_cases h : le x y = true
      · simp [insertLe, h]
      · simp only [insertLe, h, Bool.false_eq_true, if_false, List.mem_cons, ih]
        tauto

lemma mem_sortLe {α : Type} (le : α → α → Bool) (a : α) :
    ∀ l : List α, a ∈ sortLe le l ↔ a ∈ l := by
  intro l
  induction l with
  | nil => simp [sortLe]
  | cons y ys ih => simp [sortLe, mem_insertLe, ih]

lemma length_insertLe {α : Type} (le : α → α → Bool) (x : α) :
    ∀ l : List α, (insertLe le x l).length = l.length + 1 := by
  intro l
  induction l with
  | nil => simp [insertLe]
  | cons y ys ih =>
      by_cases h : le x y = true
      · simp [insertLe, h]
      · simp [insertLe, h, ih]

lemma length_sortLe {α : Type} (le : α → α → Bool) :
    ∀ l : List α, (sortLe le l).length = l.length := by
  intro l
  induction l with
  | nil => rfl
  | cons y ys ih => simp [sortLe, length_insertLe, ih]

namespace PVal

lemma padd_num_num (a b : ℚ) : padd (num a) (num b) = num (a + b) := rfl

lemma pmul_num_num (a b : ℚ) : pmul (num a) (num b) = num (a * b) := rfl

lemma pdiv_num_num (a b : ℚ) (hb : b ≠ 0) : pdiv (num a) (num b) = num (a / b) := by
  simp [pdiv, hb]

lemma plt_num_num (a b : ℚ) : plt (num a) (num b) = decide (a < b) := rfl

lemma ple_num_num (a b : ℚ) : ple (num a) (num b) = decide (a ≤ b) := rfl

lemma plt_right_nan (x : PVal) : plt x nan = false := by cases x <;> rfl

lemma plt_left_nan (x : PVal) : plt nan x = false := by cases x <;> rfl

lemma pgt_nan_left (x : PVal) : pgt nan x = false := plt_right_nan x

lemma isNan_num (q : ℚ) : (num q).isNan = false := rfl

/-- The fold used by `pmaxList`, on an all-rational list, is the fold of
`max`. -/
lemma foldl_pmax_num (qs : List ℚ) :
    ∀ q : ℚ, List.foldl (fun acc v => if plt acc v then v else acc) (num q) (qs.map num) =
      num (qs.foldl max q) := by
  induction qs with
  | nil => intro q; rfl
  | cons a as ih =>
      intro q
      have hstep : (if plt (num q) (num a) then num a else num q) = num (max q a) := by
        by_cases h : q < a
        · simp [plt_num_num, h, max_eq_right (le_of_lt h)]
        · simp [plt_num_num, h, max_eq_left (le_of_not_lt h)]
      simpa [hstep] using ih (max q a)

lemma foldl_max_le_self (qs : List ℚ) : ∀ q : ℚ, q ≤ qs.foldl max q := by
  induction qs with
  | nil => intro q; simp
  | cons a as ih => intro q; exact le_trans (le_max_left q a) (ih (max q a))

lemma foldl_max_mem (qs : List ℚ) : ∀ q : ℚ, qs.foldl max q = q ∨ qs.foldl max q ∈ qs := by
  induction qs with
  | nil => intro q; simp
  | cons a as ih =>
      intro q
      rcases ih (max q a) with h | h
      · rcases max_cases q a with ⟨he, _⟩ | ⟨he, _⟩
        · left; simp only [List.foldl_cons]; rw [h, he]
        · right; simp only [List.foldl_cons]; rw [h, he]; exact List.mem_cons_self a as
      · right; exact List.mem_cons_of_mem a h
  
lemma foldl_max_ge (qs : List ℚ) : ∀ q x : ℚ, x ∈ qs → x ≤ qs.foldl max q := by
  induction qs with
  | nil => intro q x hx; simp at hx
  | cons a as ih =>
      intro q x hx
      rcases List.mem_cons.mp hx with h | h
      · subst h; exact le_trans (le_max_right q x) (foldl_max_le_self as (max q x))
      · exact ih (max q a) x h

/-- `pmaxList` on a non-empty all-rational list is the attained rational
maximum. -/
lemma pmaxList_num (qs : List ℚ) (hne : qs ≠ []) :
    ∃ m : ℚ, pmaxList (qs.map num) = num m ∧ m ∈ qs ∧ ∀ q ∈ qs, q ≤ m := by
  have hfilter : (qs.map num).filter (fun x => !x.isNan) = qs.map num := by
    apply List.filter_eq_self.mpr
    intro x hx
    rcases List.mem_map.mp hx with ⟨q, _, rfl⟩
    rfl
  cases qs with
  | nil => exact absurd rfl hne
  | cons a as =>
      refine ⟨as.foldl max a, ?_, ?_, ?_⟩
      · rw [pmaxList, hfilter, List.map_cons, pmaxAux]
        exact foldl_pmax_num as a
      · rcases foldl_max_mem as a with h | h
        · rw [h]; exact List.mem_cons_self a as
        · exact List.mem_cons_of_mem a h
      · intro q hq
        rcases List.mem_cons.mp hq with h | h
        · subst h; exact foldl_max_le_self as q
        · exact foldl_max_ge as a q h

end PVal

/-- `calculate_district_metrics` written with its normalization branch
exposed. -/
lemma cdm_eq_branches (hasDate : Bool) (bio : List BioFRow) (enrol : List EnrolRow) :
    calculate_district_metrics hasDate bio enrol =
      if PVal.pgt (maxAUPS hasDate bio enrol) (PVal.num 0) then
        (sortByAUPSDesc (metricsBase hasDate bio enrol)).map (fun r =>
          { r with AUPS_Normalized :=
              PVal.pmul (PVal.pdiv r.AUPS (maxAUPS hasDate bio enrol)) (PVal.num 100) })
      else
        (sortByAUPSDesc (metricsBase hasDate bio enrol)).map (fun r =>
          { r with AUPS_Normalized := PVal.num 0 }) := rfl

/-- Every output row of the District Metrics Engine is a normalized copy
of a `baseRow` at some biometric group key, and conversely. -/
lemma mem_cdm_iff (hasDate : Bool) (bio : List BioFRow) (enrol : List EnrolRow) (r : MetricRow) :
    r ∈ calculate_district_metrics hasDate bio enrol ↔
      ∃ k ∈ keysOf keyOfB bio,
        r = { (baseRow hasDate bio enrol k) with AUPS_Normalized :=
                (if PVal.pgt (maxAUPS hasDate bio enrol) (PVal.num 0) then
                  PVal.pmul (PVal.pdiv (baseRow hasDate bio enrol k).AUPS
                    (maxAUPS hasDate bio enrol)) (PVal.num 100)
                else PVal.num 0) } := by
  rw [cdm_eq_branches]
  by_cases h : PVal.pgt (maxAUPS hasDate bio enrol) (PVal.num 0) = true
  · simp only [h, if_true, List.mem_map]
    constructor
    · rintro ⟨r0, hr0, rfl⟩
      rcases List.mem_map.mp ((mem_sortLe _ r0 _).mp hr0) with ⟨k, hk, rfl⟩
      exact ⟨k, hk, rfl⟩
    · rintro ⟨k, hk, rfl⟩
      refine ⟨baseRow hasDate bio enrol k, ?_, rfl⟩
      exact (mem_sortLe _ _ _).mpr (List.mem_map.mpr ⟨k, hk, rfl⟩)
  · rw [Bool.not_eq_true] at h
    simp only [h, Bool.false_eq_true, if_false, List.mem_map]
    constructor
    · rintro ⟨r0, hr0, rfl⟩
      rcases List.mem_map.mp ((mem_sortLe _ r0 _).mp hr0) with ⟨k, hk, rfl⟩
      exact ⟨k, hk, rfl⟩
    · rintro ⟨k, hk, rfl⟩
      refine ⟨baseRow hasDate bio enrol k, ?_, rfl⟩
      exact (mem_sortLe _ _ _).mpr (List.mem_map.mpr ⟨k, hk, rfl⟩)

/-- C9: the Feature Deriver returns an empty biometric or demographic
input table unchanged (no derived columns are added to an empty table)
and returns the enrolment table identically, with no mutation, for every
input. -/
theorem feature_engineering_frame (bio : List BioRaw) (demo : List DemoRaw)
    (enrol : List EnrolRow) :
    (feature_engineering bio demo enrol).2.2 = enrol ∧
    (bio = [] → (feature_engineering bio demo enrol).1 = []) ∧
    (demo = [] → (feature_engineering bio demo enrol).2.1 = []) := by
  refine ⟨rfl, ?_, ?_⟩ <;> rintro rfl <;> rfl

/-- Witness for C9 at a concrete input: empty biometric and demographic
tables and a one-row enrolment table. -/
theorem feature_engineering_frame_witness :
    (feature_engineering [] [] [sampleE "S" "A" 1 2 3]).2.2 = [sampleE "S" "A" 1 2 3] ∧
    (feature_engineering [] [] [sampleE "S" "A" 1 2 3]).1 = [] ∧
    (feature_engineering [] [] [sampleE "S" "A" 1 2 3]).2.1 = [] :=
  ⟨(feature_engineering_frame [] [] [sampleE "S" "A" 1 2 3]).1,
   (feature_engineering_frame [] [] [sampleE "S" "A" 1 2 3]).2.1 rfl,
   (feature_engineering_frame [] [] [sampleE "S" "A" 1 2 3]).2.2 rfl⟩

/-- C1: every output row's growth rate splits that district's dated rows
at the single global mean date of the whole input, sums updates strictly
after it (recent) versus at or before it (past), and equals
`(recent - past) / past` when `past > 0` and `0.0` otherwise; when the
input has no date column every district's growth rate is `0.0`. -/
theorem growth_rate_global_mean_split (hasDate : Bool) (bio : List BioFRow)
    (enrol : List EnrolRow) :
    ∀ r ∈ calculate_district_metrics hasDate bio enrol,
      r.growth_rate =
        if hasDate then
          (if 0 < districtPast bio (r.state, r.district) then
            ((districtRecent bio (r.state, r.district) : ℚ) -
              (districtPast bio (r.state, r.district) : ℚ)) /
              (districtPast bio (r.state, r.district) : ℚ)
          else 0)
        else 0 := by
  intro r hr
  rcases (mem_cdm_iff hasDate bio enrol r).mp hr with ⟨k, _, rfl⟩
  cases hasDate
  · simp [baseRow]
  · simp [baseRow, districtGrowth]

/-- Witness for C1 at a concrete input: two dated rows of one district;
the global mean date is day 1, so `recent = 30`, `past = 10` and the
growth rate is `(30 - 10) / 10 = 2`. -/
theorem growth_rate_global_mean_split_witness :
    c1row ∈ calculate_district_metrics true c1bio c1enrol ∧ c1row.growth_rate = 2 := by
  have hdd : datedDates c1bio = [0, 2] := by
    norm_num [datedDates, c1bio, sampleB, List.filterMap_cons]
  have hmean : meanDate c1bio = some 1 := by
    simp only [meanDate, hdd]
    norm_num
  have hrec : districtRecent c1bio ("S", "A") = 30 := by
    simp only [districtRecent, hmean]
    norm_num [districtRecentAt, dGT, keyOfB, c1bio, sampleB]
  have hpast : districtPast c1bio ("S", "A") = 10 := by
    simp only [districtPast, hmean]
    norm_num [districtPastAt, dLE, keyOfB, c1bio, sampleB]
  have hg : districtGrowth c1bio ("S", "A") = 2 := by
    simp only [districtGrowth, hrec, hpast]
    norm_num
  have hsum : bioSum c1bio ("S", "A") = 40 := by
    norm_num [bioSum, keyOfB, c1bio, sampleB]
  have hekeys : keysOf keyOfE c1enrol = [("S", "A")] := by
    norm_num [keysOf, keyOfE, c1enrol, sampleE]
  have het : enrolTotal c1enrol ("S", "A") = 3 := by
    norm_num [enrolTotal, keyOfE, c1enrol, sampleE]
  have hbase : baseRow true c1bio c1enrol ("S", "A") = c1base := by
    simp only [baseRow, hg, hsum, hekeys, het]
    norm_num [clipQ, PVal.pdiv, PVal.pmul, c1base]
  have hmb : metricsBase true c1bio c1enrol = [c1base] := by
    have hkeys : keysOf keyOfB c1bio = [("S", "A")] := by
      norm_num [keysOf, keyOfB, c1bio, sampleB]
    simp only [metricsBase, hkeys, List.map_cons, List.map_nil, hbase]
  have hsort : sortByAUPSDesc [c1base] = [c1base] := by
    norm_num [sortByAUPSDesc, sortLe, insertLe]
  have hmax : maxAUPS true c1bio c1enrol = PVal.num 40000 := by
    simp only [maxAUPS, hmb, hsort]
    norm_num [PVal.pmaxList, PVal.pmaxAux, PVal.isNan, c1base]
  have heq : calculate_district_metrics true c1bio c1enrol = [c1row] := by
    rw [cdm_eq_branches]
    simp only [hmax, hmb, hsort]
    norm_num [PVal.pgt, PVal.plt, PVal.pdiv, PVal.pmul, c1base, c1row]
  have hmem : c1row ∈ calculate_district_metrics true c1bio c1enrol := by
    rw [heq]
    exact List.mem_singleton.mpr rfl
  refine ⟨hmem, ?_⟩
  have h := growth_rate_global_mean_split true c1bio c1enrol c1row hmem
  rw [h]
  norm_num [hrec, hpast, c1row]

/-- Counterexample for C2: a district present in the enrolment table with
an all-zero group keeps `total_enrolment = 0`; the value is not floored
at 1 (only districts missing from the enrolment table are). -/
theorem total_enrolment_zero_not_floored :
    (calculate_district_metrics false c2bio c2enrol).map (fun r => r.total_enrolment) = [0] ∧
    ¬ ((1 : ℚ) ≤ 0) := by
  constructor
  · norm_num [calculate_district_metrics, metricsBase, baseRow, sortByAUPSDesc, sortLe,
      insertLe, keysOf, bioSum, enrolTotal, keyOfB, keyOfE, clipQ, maxAUPS,
      PVal.pmaxList, PVal.pmaxAux, PVal.pdiv, PVal.pmul, PVal.pgt, PVal.plt, PVal.isNan,
      c2bio, c2enrol, sampleB, sampleE]
  · norm_num

/-- C2 (amended): `total_enrolment` of every output row follows pandas'
left-merge-plus-`fillna(1)` rule: it is the district's aggregated
enrolment total when the district appears in the enrolment table (even
when that total is 0) and `1` exactly when the district is absent. -/
theorem total_enrolment_left_merge (hasDate : Bool) (bio : List BioFRow)
    (enrol : List EnrolRow) :
    ∀ r ∈ calculate_district_metrics hasDate bio enrol,
      r.total_enrolment =
        if (r.state, r.district) ∈ keysOf keyOfE enrol then
          (enrolTotal enrol (r.state, r.district) : ℚ)
        else 1 := by
  intro r hr
  rcases (mem_cdm_iff hasDate bio enrol r).mp hr with ⟨k, _, rfl⟩
  simp [baseRow]

/-- Witness for C2 (amended) at a concrete input: a district absent from
the enrolment table gets `total_enrolment = 1`. -/
theorem total_enrolment_left_merge_witness :
    c2wrow ∈ calculate_district_metrics false c2wbio [] ∧ c2wrow.total_enrolment = 1 := by
  have hmem : c2wrow ∈ calculate_district_metrics false c2wbio [] := by
    have heq : calculate_district_metrics false c2wbio [] = [c2wrow] := by
      norm_num [calculate_district_metrics, metricsBase, baseRow, sortByAUPSDesc, sortLe,
        insertLe, keysOf, bioSum, enrolTotal, keyOfB, keyOfE, clipQ, maxAUPS,
        PVal.pmaxList, PVal.pmaxAux, PVal.pdiv, PVal.pmul, PVal.pgt, PVal.plt, PVal.isNan,
        c2wbio, c2wrow, sampleB]
    rw [heq]
    exact List.mem_singleton.mpr rfl
  refine ⟨hmem, ?_⟩
  have h := total_enrolment_left_merge false c2wbio [] c2wrow hmem
  rw [h]
  norm_num [keysOf, c2wrow]

/-- Counterexample for C3: with a positive-update district whose
enrolment group sums to zero, the raw AUPS is infinite and the normalized
score of the maximal row is NaN, which is neither at least 0 nor at most
100 (and is not 100). -/
theorem AUPS_Normalized_nan_out_of_range :
    (calculate_district_metrics false c3bio c3enrol).map (fun r => r.AUPS_Normalized) =
      [PVal.nan] ∧
    PVal.ple (PVal.num 0) PVal.nan = false ∧ PVal.ple PVal.nan (PVal.num 100) = false := by
  refine ⟨?_, rfl, rfl⟩
  have hbase : baseRow false c3bio c3enrol ("U", "C") = c3base := by
    norm_num [baseRow, bioSum, enrolTotal, keysOf, keyOfB, keyOfE, clipQ,
      PVal.pdiv, PVal.pmul, c3bio, c3enrol, c3base, sampleB, sampleE]
  have hmb : metricsBase false c3bio c3enrol = [c3base] := by
    have hkeys : keysOf keyOfB c3bio = [("U", "C")] := by
      norm_num [keysOf, keyOfB, c3bio, sampleB]
    simp only [metricsBase, hkeys, List.map_cons, List.map_nil, hbase]
  have hsort : sortByAUPSDesc [c3base] = [c3base] := by
    norm_num [sortByAUPSDesc, sortLe, insertLe]
  have hmax : maxAUPS false c3bio c3enrol = PVal.inf := by
    simp only [maxAUPS, hmb, hsort]
    norm_num [PVal.pmaxList, PVal.pmaxAux, PVal.isNan, c3base]
  rw [cdm_eq_branches]
  simp only [hmax, hmb, hsort]
  norm_num [PVal.pgt, PVal.plt, PVal.pdiv, PVal.pmul, c3base]

/-- Auxiliary: a list whose members are all non-negative rationals under
`PVal.num` is the `PVal.num` image of a list of non-negative rationals. -/
lemma exists_map_num (l : List PVal) (hl : ∀ x ∈ l, ∃ q : ℚ, x = PVal.num q ∧ 0 ≤ q) :
    ∃ qs : List ℚ, l = qs.map PVal.num ∧ ∀ q ∈ qs, 0 ≤ q := by
  induction l with
  | nil => exact ⟨[], rfl, by simp⟩
  | cons x xs ih =>
      rcases hl x (List.mem_cons_self x xs) with ⟨q, hq, hq0⟩
      rcases ih (fun y hy => hl y (List.mem_cons_of_mem x hy)) with ⟨qs, hqs, hqs0⟩
      refine ⟨q :: qs, by simp [hq, hqs], ?_⟩
      intro p hp
      rcases List.mem_cons.mp hp with h | h
      · subst h; exact hq0
      · exact hqs0 p h

/-- Auxiliary: the growth multiplier `1 + clip(g, -0.5, 2.0)` is at least
one half. -/
lemma growth_multiplier_ge (g : ℚ) : (1 / 2 : ℚ) ≤ 1 + clipQ g := by
  have h : -(1 / 2 : ℚ) ≤ clipQ g := le_min (by norm_num) (le_max_left _ _)
  linarith

/-- Auxiliary: under an everywhere-positive enrolment aggregate, every
pre-normalization AUPS is a non-negative rational. -/
lemma baseRow_AUPS_num_nonneg (hasDate : Bool) (bio : List BioFRow) (enrol : List EnrolRow)
    (h : ∀ k ∈ keysOf keyOfE enrol, 1 ≤ enrolTotal enrol k) (k : Key) :
    ∃ q : ℚ, (baseRow hasDate bio enrol k).AUPS = PVal.num q ∧ 0 ≤ q := by
  have hte : (1 : ℚ) ≤ (if k ∈ keysOf keyOfE enrol then (enrolTotal enrol k : ℚ) else 1) := by
    by_cases hk : k ∈ keysOf keyOfE enrol
    · simp only [hk, if_true]
      exact_mod_cast h k hk
    · simp [hk]
  set te : ℚ := if k ∈ keysOf keyOfE enrol then (enrolTotal enrol k : ℚ) else 1 with hteq
  have hte0 : te ≠ 0 := ne_of_gt (lt_of_lt_of_le zero_lt_one hte)
  set g : ℚ := if hasDate then districtGrowth bio k else 0 with hgq
  have hgm : (0 : ℚ) ≤ 1 + clipQ g := le_trans (by norm_num) (growth_multiplier_ge g)
  refine ⟨(bioSum bio k : ℚ) / te * (1 + clipQ g) * 1000, ?_, ?_⟩
  · simp only [baseRow, ← hteq, ← hgq, PVal.pdiv_num_num _ _ hte0, PVal.pmul_num_num]
  · have hq : (0 : ℚ) ≤ (bioSum bio k : ℚ) / te :=
      div_nonneg (Nat.cast_nonneg _) (le_trans zero_le_one hte)
    have := mul_nonneg hq hgm
    linarith

/-- C3 (amended): provided every district present in the enrolment table
has an aggregated total of at least 1 (so no density division by zero
occurs), every output row's `AUPS_Normalized` is a rational between 0 and
100; a row attaining the maximum raw AUPS has normalized score exactly
100 when that maximum is positive; and when the maximum is not positive
every row's normalized score is 0. -/
theorem AUPS_Normalized_range (hasDate : Bool) (bio : List BioFRow) (enrol : List EnrolRow)
    (h : ∀ k ∈ keysOf keyOfE enrol, 1 ≤ enrolTotal enrol k) :
    (∀ r ∈ calculate_district_metrics hasDate bio enrol,
        ∃ q : ℚ, r.AUPS_Normalized = PVal.num q ∧ 0 ≤ q ∧ q ≤ 100) ∧
    (PVal.pgt (maxAUPS hasDate bio enrol) (PVal.num 0) = true →
        ∃ r ∈ calculate_district_metrics hasDate bio enrol,
          r.AUPS = maxAUPS hasDate bio enrol ∧ r.AUPS_Normalized = PVal.num 100) ∧
    (PVal.pgt (maxAUPS hasDate bio enrol) (PVal.num 0) = false →
        ∀ r ∈ calculate_district_metrics hasDate bio enrol,
          r.AUPS_Normalized = PVal.num 0) := by
  have hallB : ∀ r ∈ sortByAUPSDesc (metricsBase hasDate bio enrol),
      ∃ q : ℚ, r.AUPS = PVal.num q ∧ 0 ≤ q := by
    intro r hr
    rcases List.mem_map.mp ((mem_sortLe _ r _).mp hr) with ⟨k, _, rfl⟩
    exact baseRow_AUPS_num_nonneg hasDate bio enrol h k
  rcases exists_map_num ((sortByAUPSDesc (metricsBase hasDate bio enrol)).map
      (fun r => r.AUPS)) (by
        intro x hx
        rcases List.mem_map.mp hx with ⟨r, hr, rfl⟩
        exact hallB r hr) with ⟨qs, hqs, hqs0⟩
  have hmaxeq : maxAUPS hasDate bio enrol = PVal.pmaxList (qs.map PVal.num) := by
    rw [maxAUPS, hqs]
  by_cases hne : qs = []
  · -- empty output: everything is vacuous
    subst hne
    have hmapnil : List.map (fun r => r.AUPS) (sortByAUPSDesc (metricsBase hasDate bio enrol)) =
        ([] : List PVal) := by simpa using hqs
    have hB : (sortByAUPSDesc (metricsBase hasDate bio enrol)) = [] :=
      List.map_eq_nil_iff.mp hmapnil
    have hL : calculate_district_metrics hasDate bio enrol = [] := by
      rw [cdm_eq_branches]
      by_cases hc : PVal.pgt (maxAUPS hasDate bio enrol) (PVal.num 0) = true
      · simp [hc, hB]
      · simp only [Bool.not_eq_true] at hc
        simp [hc, hB]
    have hmaxnan : maxAUPS hasDate bio enrol = PVal.nan := by
      rw [hmaxeq]; rfl
    refine ⟨?_, ?_, ?_⟩
    · intro r hr; rw [hL] at hr; exact absurd hr (List.not_mem_nil r)
    · intro hgt
      rw [hmaxnan] at hgt
      exact absurd hgt (by simp [PVal.pgt, PVal.plt_right_nan])
    · intro _ r hr; rw [hL] at hr; exact absurd hr (List.not_mem_nil r)
  · rcases PVal.pmaxList_num qs hne with ⟨m, hm, hmmem, hmub⟩
    have hm0 : (0 : ℚ) ≤ m := hqs0 m hmmem
    have hMX : maxAUPS hasDate bio enrol = PVal.num m := by rw [hmaxeq, hm]
    have hmem_of_num : ∀ q ∈ qs, ∃ r ∈ sortByAUPSDesc (metricsBase hasDate bio enrol),
        r.AUPS = PVal.num q := by
      intro q hq
      have : PVal.num q ∈ (sortByAUPSDesc (metricsBase hasDate bio enrol)).map
          (fun r => r.AUPS) := by
        rw [hqs]; exact List.mem_map.mpr ⟨q, hq, rfl⟩
      rcases List.mem_map.mp this with ⟨r, hr, he⟩
      exact ⟨r, hr, he⟩
    have hq_of_mem : ∀ r ∈ sortByAUPSDesc (metricsBase hasDate bio enrol),
        ∃ q ∈ qs, r.AUPS = PVal.num q := by
      intro r hr
      have : r.AUPS ∈ (sortByAUPSDesc (metricsBase hasDate bio enrol)).map
          (fun x => x.AUPS) := List.mem_map.mpr ⟨r, hr, rfl⟩
      rw [hqs] at this
      rcases List.mem_map.mp this with ⟨q, hq, he⟩
      exact ⟨q, hq, he.symm⟩
    by_cases hpos : 0 < m
    · have hm0' : m ≠ 0 := ne_of_gt hpos
      have hgt : PVal.pgt (maxAUPS hasDate bio enrol) (PVal.num 0) = true := by
        rw [hMX]
        simp [PVal.pgt, PVal.plt, hpos]
      have hL : calculate_district_metrics hasDate bio enrol =
          (sortByAUPSDesc (metricsBase hasDate bio enrol)).map (fun r =>
            { r with AUPS_Normalized :=
                PVal.pmul (PVal.pdiv r.AUPS (maxAUPS hasDate bio enrol)) (PVal.num 100) }) := by
        rw [cdm_eq_branches, if_pos hgt]
      refine ⟨?_, ?_, ?_⟩
      · intro r hr
        rw [hL] at hr
        rcases List.mem_map.mp hr with ⟨r0, hr0, rfl⟩
        rcases hq_of_mem r0 hr0 with ⟨q, hqin, hqe⟩
        refine ⟨q / m * 100, ?_, ?_, ?_⟩
        · show PVal.pmul (PVal.pdiv r0.AUPS (maxAUPS hasDate bio enrol)) (PVal.num 100) =
            PVal.num (q / m * 100)
          rw [hqe, hMX, PVal.pdiv_num_num _ _ hm0', PVal.pmul_num_num]
        · exact mul_nonneg (div_nonneg (hqs0 q hqin) hm0) (by norm_num)
        · have hqm : q / m ≤ 1 := (div_le_one hpos).mpr (hmub q hqin)
          nlinarith
      · intro _
        rcases hmem_of_num m hmmem with ⟨r0, hr0, he⟩
        refine ⟨{ r0 with AUPS_Normalized := PVal.pmul (PVal.pdiv r0.AUPS (maxAUPS hasDate bio enrol)) (PVal.num 100) }, ?_, ?_, ?_⟩
        · rw [hL]
          exact List.mem_map.mpr ⟨r0, hr0, rfl⟩
        · show r0.AUPS = maxAUPS hasDate bio enrol
          rw [he, hMX]
        · show PVal.pmul (PVal.pdiv r0.AUPS (maxAUPS hasDate bio enrol)) (PVal.num 100) =
            PVal.num 100
          rw [he, hMX, PVal.pdiv_num_num _ _ hm0', PVal.pmul_num_num, div_self hm0']
          norm_num
      · intro hfalse
        rw [hgt] at hfalse
        exact absurd hfalse (by simp)
    · have hgt : PVal.pgt (maxAUPS hasDate bio enrol) (PVal.num 0) = false := by
        rw [hMX]
        simp [PVal.pgt, PVal.plt, hpos]
      have hL : calculate_district_metrics hasDate bio enrol =
          (sortByAUPSDesc (metricsBase hasDate bio enrol)).map (fun r =>
            { r with AUPS_Normalized := PVal.num 0 }) := by
        rw [cdm_eq_branches, if_neg (by rw [hgt]; exact Bool.false_ne_true)]
      refine ⟨?_, ?_, ?_⟩
      · intro r hr
        rw [hL] at hr
        rcases List.mem_map.mp hr with ⟨r0, _, rfl⟩
        exact ⟨0, rfl, le_refl 0, by norm_num⟩
      · intro htrue
        rw [hgt] at htrue
        exact absurd htrue (by simp)
      · intro _ r hr
        rw [hL] at hr
        rcases List.mem_map.mp hr with ⟨r0, _, rfl⟩
        rfl

/-- Witness for C3 (amended) at a concrete input: one district with
enrolment total 30 and 60 updates. -/
theorem AUPS_Normalized_range_witness :
    (∀ k ∈ keysOf keyOfE c3wenrol, 1 ≤ enrolTotal c3wenrol k) ∧
    ((∀ r ∈ calculate_district_metrics false c3wbio c3wenrol,
        ∃ q : ℚ, r.AUPS_Normalized = PVal.num q ∧ 0 ≤ q ∧ q ≤ 100) ∧
    (PVal.pgt (maxAUPS false c3wbio c3wenrol) (PVal.num 0) = true →
        ∃ r ∈ calculate_district_metrics false c3wbio c3wenrol,
          r.AUPS = maxAUPS false c3wbio c3wenrol ∧ r.AUPS_Normalized = PVal.num 100) ∧
    (PVal.pgt (maxAUPS false c3wbio c3wenrol) (PVal.num 0) = false →
        ∀ r ∈ calculate_district_metrics false c3wbio c3wenrol,
          r.AUPS_Normalized = PVal.num 0)) := by
  have hh : ∀ k ∈ keysOf keyOfE c3wenrol, 1 ≤ enrolTotal c3wenrol k := by
    intro k hk
    have : k = ("S", "A") := by
      revert hk
      norm_num [keysOf, keyOfE, c3wenrol, sampleE]
    subst this
    norm_num [enrolTotal, keyOfE, c3wenrol, sampleE]
  exact ⟨hh, AUPS_Normalized_range false c3wbio c3wenrol hh⟩

lemma truncQ_natCast (n : ℕ) : truncQ ((n : ℕ) : ℚ) = (n : ℤ) := by
  simp [truncQ]

lemma truncQ_mono {a b : ℚ} (h : a ≤ b) : truncQ a ≤ truncQ b := by
  unfold truncQ
  by_cases ha : 0 ≤ a
  · rw [if_pos ha, if_pos (le_trans ha h)]
    exact Int.floor_le_floor h
  · rw [if_neg ha]
    by_cases hb : 0 ≤ b
    · rw [if_pos hb]
      have h1 : (0 : ℤ) ≤ ⌊b⌋ := Int.floor_nonneg.mpr hb
      have h2 : (0 : ℤ) ≤ ⌊-a⌋ := Int.floor_nonneg.mpr (by linarith [lt_of_not_le ha])
      omega
    · rw [if_neg hb]
      have : ⌊-b⌋ ≤ ⌊-a⌋ := Int.floor_le_floor (by linarith)
      omega

lemma uncertainty_nonneg (i : ℕ) : 0 ≤ uncertainty i := by
  unfold uncertainty
  positivity

/-- A NaN growth factor makes the first forecast step fail in `int()`. -/
lemma forecastSteps_nan_gf (d q : ℚ) (i n : ℕ) :
    forecastSteps PVal.nan d i (n + 1) (PVal.num q) = Except.error () := by
  simp [forecastSteps, PVal.pmul, pint]

/-- With growth factor exactly 1, the forecast loop emits, for each
remaining step, the constant value with truncated symmetric bounds. -/
lemma forecastSteps_one (v : ℕ) (d : ℚ) :
    ∀ rem i, forecastSteps (PVal.num 1) d i rem (PVal.num ((v : ℕ) : ℚ)) =
      Except.ok ((List.range rem).map (fun j =>
        ({ date := d + (((i + j : ℕ) : ℕ) : ℚ), forecast := ((v : ℕ) : ℤ),
           lower_ci := truncQ (((v : ℕ) : ℚ) * (1 - uncertainty (i + j))),
           upper_ci := truncQ (((v : ℕ) : ℚ) * (1 + uncertainty (i + j))) } : ForecastPoint))) := by
  intro rem
  induction rem with
  | zero => intro i; rfl
  | succ n ih =>
      intro i
      have hmul : PVal.pmul (PVal.num ((v : ℕ) : ℚ)) (PVal.num 1) = PVal.num ((v : ℕ) : ℚ) := by
        rw [PVal.pmul_num_num, mul_one]
      rw [forecastSteps, hmul]
      have hint : pint (PVal.num ((v : ℕ) : ℚ)) = some ((v : ℕ) : ℤ) := by
        simp [pint, truncQ_natCast]
      rw [hint]
      simp only [pint, PVal.pmul_num_num]
      rw [ih (i + 1)]
      simp only [List.range_succ_eq_map, List.map_cons, List.map_map]
      congr 1
      simp only [List.cons.injEq]
      refine ⟨by simp, ?_⟩
      apply List.map_congr_left
      intro j _
      have h1 : i + 1 + j = i + (j + 1) := by omega
      simp [Function.comp, h1]

/-- The growth factor is NaN exactly when the mean growth is NaN; in
every other case it is a rational in `[0.95, 1.05]` (hence non-negative). -/
lemma growthFactorOf_shape (bio : List BioFRow) :
    growthFactorOf bio = PVal.nan ∨
      ∃ g : ℚ, growthFactorOf bio = PVal.num g ∧ 0 ≤ g := by
  unfold growthFactorOf
  cases hag : avgGrowthOf bio with
  | num a =>
      right
      by_cases h1 : (5 / 100 : ℚ) < a
      · have hmin : PVal.pymin (PVal.num a) (PVal.num (5 / 100)) = PVal.num (5 / 100) := by
          simp [PVal.pymin, PVal.plt, h1]
        have hmax : PVal.pymax (PVal.num (5 / 100)) (PVal.num (-(5 / 100))) =
            PVal.num (5 / 100) := by
          simp [PVal.pymax, PVal.plt]
          norm_num
        exact ⟨1 + 5 / 100, by rw [hmin, hmax, PVal.padd_num_num], by norm_num⟩
      · by_cases h2 : a < -(5 / 100 : ℚ)
        · have hmin : PVal.pymin (PVal.num a) (PVal.num (5 / 100)) = PVal.num a := by
            simp [PVal.pymin, PVal.plt, h1]
          have hmax : PVal.pymax (PVal.num a) (PVal.num (-(5 / 100))) =
              PVal.num (-(5 / 100)) := by
            simp [PVal.pymax, PVal.plt, h2]
          exact ⟨1 + -(5 / 100), by rw [hmin, hmax, PVal.padd_num_num], by norm_num⟩
        · have hmin : PVal.pymin (PVal.num a) (PVal.num (5 / 100)) = PVal.num a := by
            simp [PVal.pymin, PVal.plt, h1]
          have hmax : PVal.pymax (PVal.num a) (PVal.num (-(5 / 100))) = PVal.num a := by
            simp [PVal.pymax, PVal.plt, h2]
          exact ⟨1 + a, by rw [hmin, hmax, PVal.padd_num_num],
            by linarith [le_of_not_lt h2]⟩
  | nan =>
      left
      simp [PVal.pymin, PVal.pymax, PVal.plt, PVal.padd]
  | inf =>
      right
      have hmin : PVal.pymin PVal.inf (PVal.num (5 / 100)) = PVal.num (5 / 100) := by
        simp [PVal.pymin, PVal.plt]
      have hmax : PVal.pymax (PVal.num (5 / 100)) (PVal.num (-(5 / 100))) =
          PVal.num (5 / 100) := by
        simp [PVal.pymax, PVal.plt]
        norm_num
      exact ⟨1 + 5 / 100, by rw [hmin, hmax, PVal.padd_num_num], by norm_num⟩
  | ninf =>
      right
      have hmin : PVal.pymin PVal.ninf (PVal.num (5 / 100)) = PVal.ninf := by
        simp [PVal.pymin, PVal.plt]
      have hmax : PVal.pymax PVal.ninf (PVal.num (-(5 / 100))) = PVal.num (-(5 / 100)) := by
        simp [PVal.pymax, PVal.plt]
      exact ⟨1 + -(5 / 100), by rw [hmin, hmax, PVal.padd_num_num], by norm_num⟩

/-- Every point emitted by the forecast loop under a non-negative
rational growth factor and starting value has its confidence band around
the point forecast. -/
lemma forecastSteps_bounds (g : ℚ) (hg : 0 ≤ g) (d : ℚ) :
    ∀ (rem : ℕ) (i : ℕ) (q : ℚ), 0 ≤ q →
      ∀ pts, forecastSteps (PVal.num g) d i rem (PVal.num q) = Except.ok pts →
        ∀ p ∈ pts, p.lower_ci ≤ p.forecast ∧ p.forecast ≤ p.upper_ci := by
  intro rem
  induction rem with
  | zero =>
      intro i q _ pts hok p hp
      simp only [forecastSteps, Except.ok.injEq] at hok
      subst hok
      exact absurd hp (List.not_mem_nil p)
  | succ n ih =>
      intro i q hq pts hok p hp
      rw [forecastSteps, PVal.pmul_num_num] at hok
      simp only [pint, PVal.pmul_num_num] at hok
      rcases hcall : forecastSteps (PVal.num g) d (i + 1) n (PVal.num (q * g)) with e | rest
      · rw [hcall] at hok
        simp at hok
      · rw [hcall] at hok
        have hqg : 0 ≤ q * g := mul_nonneg hq hg
        simp only [Except.ok.injEq] at hok
        subst hok
        rcases List.mem_cons.mp hp with rfl | hmem
        · constructor
          · exact truncQ_mono (by nlinarith [uncertainty_nonneg i])
          · exact truncQ_mono (by nlinarith [uncertainty_nonneg i])
        · exact ih (i + 1) (q * g) hqg rest hcall p hmem

lemma zb14_dailySum_zero : ∀ d : ℚ, dailySum zb14 d = 0 := by
  intro d
  refine List.sum_eq_zero ?_
  intro x hx
  rcases List.mem_map.mp hx with ⟨r, hr, rfl⟩
  have hrm : r ∈ zb14 := List.mem_of_mem_filter hr
  simp only [zb14, List.mem_cons, List.not_mem_nil, or_false] at hrm
  rcases hrm with rfl | rfl | rfl | rfl | rfl | rfl | rfl | rfl | rfl | rfl | rfl | rfl | rfl | rfl <;> rfl

lemma zb14_daily : dailyTotals zb14 =
    [((0 : ℚ), 0), (1, 0), (2, 0), (3, 0), (4, 0), (5, 0), (6, 0), (7, 0), (8, 0), (9, 0),
     (10, 0), (11, 0), (12, 0), (13, 0)] := by
  have hfm : zb14.filterMap (fun r => r.date) =
      [(0 : ℚ), 1, 2, 3, 4, 5, 6, 7, 8, 9, 10, 11, 12, 13] := by
    norm_num [zb14, sampleB, List.filterMap_cons]
  have hded : dedup ([(0 : ℚ), 1, 2, 3, 4, 5, 6, 7, 8, 9, 10, 11, 12, 13]) =
      [(0 : ℚ), 1, 2, 3, 4, 5, 6, 7, 8, 9, 10, 11, 12, 13] := by
    norm_num [dedup]
  have hsort : sortLe (fun a b => decide (a ≤ b))
      ([(0 : ℚ), 1, 2, 3, 4, 5, 6, 7, 8, 9, 10, 11, 12, 13]) =
      [(0 : ℚ), 1, 2, 3, 4, 5, 6, 7, 8, 9, 10, 11, 12, 13] := by
    norm_num [sortLe, insertLe]
  have hdates : dailyDates zb14 =
      [(0 : ℚ), 1, 2, 3, 4, 5, 6, 7, 8, 9, 10, 11, 12, 13] := by
    rw [dailyDates, hfm, hded, hsort]
  simp only [dailyTotals, hdates, List.map_cons, List.map_nil, zb14_dailySum_zero]

lemma zb14_avg_nan : avgGrowthOf zb14 = PVal.nan := by
  have hvals : (last14 (dailyTotals zb14)).map (fun x => x.2) =
      [0, 0, 0, 0, 0, 0, 0, 0, 0, 0, 0, 0, 0, 0] := by
    rw [zb14_daily]
    rfl
  rw [avgGrowthOf, hvals]
  norm_num [pctChanges, pctGo, PVal.psub, PVal.pdiv, PVal.pneg, PVal.padd,
    PVal.pmeanList, PVal.pmeanAux, PVal.isNan]

lemma zb14_gf_nan : growthFactorOf zb14 = PVal.nan := by
  rw [growthFactorOf, zb14_avg_nan]
  rfl

/-- C4 (code bug): on an input whose 14 dated daily totals are all zero,
every day-over-day percentage change is 0/0 = NaN, so the growth factor
is NaN and `int(current_val)` raises ValueError on the first forecast
point: the Forecaster aborts with an unhandled arithmetic fault instead
of a defined fallback or an empty result. -/
theorem generate_forecast_nan_fault :
    growthFactorOf zb14 = PVal.nan ∧
    generate_forecast true zb14 none 30 = Except.error () := by
  refine ⟨zb14_gf_nan, ?_⟩
  have hne : zb14.isEmpty = false := rfl
  have hlen : (last14 (dailyTotals zb14)).length = 14 := by rw [zb14_daily]; rfl
  have hge : generate_forecast true zb14 none 30 =
      forecastSteps (growthFactorOf zb14) (lastDateOf zb14) 1 30
        (PVal.num ((lastValOf zb14 : ℕ) : ℚ)) := by
    simp only [generate_forecast, stateFilter, hne, hlen]
    norm_num
  rw [hge, zb14_gf_nan]
  exact forecastSteps_nan_gf _ _ 1 29

lemma zb15_dailySum_zero : ∀ d : ℚ, dailySum zb15 d = 0 := by
  intro d
  refine List.sum_eq_zero ?_
  intro x hx
  rcases List.mem_map.mp hx with ⟨r, hr, rfl⟩
  have hrm : r ∈ zb15 := List.mem_of_mem_filter hr
  simp only [zb15, List.mem_cons, List.not_mem_nil, or_false] at hrm
  rcases hrm with rfl | rfl | rfl | rfl | rfl | rfl | rfl | rfl | rfl | rfl | rfl | rfl | rfl | rfl | rfl <;> rfl

lemma zb15_daily : dailyTotals zb15 =
    [((0 : ℚ), 0), (1, 0), (2, 0), (3, 0), (4, 0), (5, 0), (6, 0), (7, 0), (8, 0), (9, 0),
     (10, 0), (11, 0), (12, 0), (13, 0), (14, 0)] := by
  have hfm : zb15.filterMap (fun r => r.date) =
      [(0 : ℚ), 1, 2, 3, 4, 5, 6, 7, 8, 9, 10, 11, 12, 13, 14] := by
    norm_num [zb15, sampleB, List.filterMap_cons]
  have hded : dedup ([(0 : ℚ), 1, 2, 3, 4, 5, 6, 7, 8, 9, 10, 11, 12, 13, 14]) =
      [(0 : ℚ), 1, 2, 3, 4, 5, 6, 7, 8, 9, 10, 11, 12, 13, 14] := by
    norm_num [dedup]
  have hsort : sortLe (fun a b => decide (a ≤ b))
      ([(0 : ℚ), 1, 2, 3, 4, 5, 6, 7, 8, 9, 10, 11, 12, 13, 14]) =
      [(0 : ℚ), 1, 2, 3, 4, 5, 6, 7, 8, 9, 10, 11, 12, 13, 14] := by
    norm_num [sortLe, insertLe]
  have hdates : dailyDates zb15 =
      [(0 : ℚ), 1, 2, 3, 4, 5, 6, 7, 8, 9, 10, 11, 12, 13, 14] := by
    rw [dailyDates, hfm, hded, hsort]
  simp only [dailyTotals, hdates, List.map_cons, List.map_nil, zb15_dailySum_zero]

lemma zb15_gf_nan : growthFactorOf zb15 = PVal.nan := by
  have hvals : (last14 (dailyTotals zb15)).map (fun x => x.2) =
      [0, 0, 0, 0, 0, 0, 0, 0, 0, 0, 0, 0, 0, 0] := by
    rw [zb15_daily]
    rfl
  have havg : avgGrowthOf zb15 = PVal.nan := by
    rw [avgGrowthOf, hvals]
    norm_num [pctChanges, pctGo, PVal.psub, PVal.pdiv, PVal.pneg, PVal.padd,
      PVal.pmeanList, PVal.pmeanAux, PVal.isNan]
  rw [growthFactorOf, havg]
  rfl

/-- C6 (code bug): an input with 15 distinct dated daily totals (all
zero) satisfies none of the documented empty-result conditions - the
table is non-empty, has a date column and has at least 14 distinct dated
daily totals - yet `generate_forecast` raises (ValueError on `int(NaN)`)
instead of returning `days` forecast points. -/
theorem generate_forecast_not_days_points :
    zb15 ≠ [] ∧
    (dailyTotals zb15).length = 15 ∧
    (last14 (dailyTotals zb15)).length = 14 ∧
    generate_forecast true zb15 none 30 = Except.error () := by
  refine ⟨by simp [zb15], by rw [zb15_daily]; rfl, by rw [zb15_daily]; rfl, ?_⟩
  have hne : zb15.isEmpty = false := rfl
  have hlen : (last14 (dailyTotals zb15)).length = 14 := by rw [zb15_daily]; rfl
  have hge : generate_forecast true zb15 none 30 =
      forecastSteps (growthFactorOf zb15) (lastDateOf zb15) 1 30
        (PVal.num ((lastValOf zb15 : ℕ) : ℚ)) := by
    simp only [generate_forecast, stateFilter, hne, hlen]
    norm_num
  rw [hge, zb15_gf_nan]
  exact forecastSteps_nan_gf _ _ 1 29

lemma pctGo_replicate (v : ℕ) (hv : ((v : ℕ) : ℚ) ≠ 0) :
    ∀ n : ℕ, pctGo v (List.replicate n v) = List.replicate n (PVal.num 0) := by
  intro n
  induction n with
  | zero => rfl
  | succ m ih =>
      rw [List.replicate_succ, List.replicate_succ]
      show PVal.psub (PVal.pdiv (PVal.num ((v : ℕ) : ℚ)) (PVal.num ((v : ℕ) : ℚ)))
          (PVal.num 1) :: pctGo v (List.replicate m v) = PVal.num 0 :: List.replicate m (PVal.num 0)
      rw [PVal.pdiv_num_num _ _ hv, div_self hv, ih]
      norm_num [PVal.psub, PVal.pneg, PVal.padd_num_num]

lemma foldl_padd_num_zero : ∀ n : ℕ,
    List.foldl PVal.padd (PVal.num 0) (List.replicate n (PVal.num 0)) = PVal.num 0 := by
  intro n
  induction n with
  | zero => rfl
  | succ m ih =>
      rw [List.replicate_succ, List.foldl_cons, PVal.padd_num_num]
      norm_num [ih]

/-- Shared fact: on a trailing window of 14 identical positive daily
totals the mean day-over-day growth is exactly zero. -/
lemma avgGrowth_of_const (bio : List BioFRow) (v : ℕ) (hv : 0 < v)
    (h14 : (last14 (dailyTotals bio)).map (fun x => x.2) = List.replicate 14 v) :
    avgGrowthOf bio = PVal.num 0 := by
  have hvq : ((v : ℕ) : ℚ) ≠ 0 := Nat.cast_ne_zero.mpr (Nat.pos_iff_ne_zero.mp hv)
  have hpct : pctChanges (List.replicate 14 v) = PVal.nan :: List.replicate 13 (PVal.num 0) := by
    rw [show (14 : ℕ) = 13 + 1 from rfl, List.replicate_succ]
    show PVal.nan :: pctGo v (List.replicate 13 v) = PVal.nan :: List.replicate 13 (PVal.num 0)
    rw [pctGo_replicate v hvq]
  rw [avgGrowthOf, h14, hpct]
  have hfilter : (PVal.nan :: List.replicate 13 (PVal.num 0)).filter (fun x => !x.isNan) =
      List.replicate 13 (PVal.num 0) := by
    rw [List.filter_cons]
    simp only [PVal.isNan, Bool.not_true, Bool.false_eq_true, if_false]
    apply List.filter_eq_self.mpr
    intro x hx
    rw [List.eq_of_mem_replicate hx]
    rfl
  rw [PVal.pmeanList, hfilter, show (13 : ℕ) = 12 + 1 from rfl, List.replicate_succ, PVal.pmeanAux]
  rw [← List.replicate_succ, show (12 : ℕ) + 1 = 13 from rfl, foldl_padd_num_zero 13]
  have hlenr : (((List.replicate 13 (PVal.num 0)).length : ℕ) : ℚ) = 13 := by simp
  rw [hlenr, PVal.pdiv_num_num _ _ (by norm_num : (13 : ℚ) ≠ 0)]
  norm_num

/-- Shared fact: a zero mean growth gives growth factor exactly 1. -/
lemma growthFactor_of_const (bio : List BioFRow) (v : ℕ) (hv : 0 < v)
    (h14 : (last14 (dailyTotals bio)).map (fun x => x.2) = List.replicate 14 v) :
    growthFactorOf bio = PVal.num 1 := by
  rw [growthFactorOf, avgGrowth_of_const bio v hv h14]
  have hmin : PVal.pymin (PVal.num 0) (PVal.num (5 / 100)) = PVal.num 0 := by
    simp [PVal.pymin, PVal.plt]
    norm_num
  have hmax : PVal.pymax (PVal.num 0) (PVal.num (-(5 / 100))) = PVal.num 0 := by
    simp [PVal.pymax, PVal.plt]
    norm_num
  rw [hmin, hmax, PVal.padd_num_num]
  norm_num

lemma lastVal_of_const (bio : List BioFRow) (v : ℕ)
    (h14 : (last14 (dailyTotals bio)).map (fun x => x.2) = List.replicate 14 v) :
    lastValOf bio = v := by
  rw [lastValOf, h14, show (14 : ℕ) = 13 + 1 from rfl, List.replicate_succ',
    List.getLast?_concat]
  rfl

/-- Shared fact: on a constant positive 14-day window the Forecaster
returns, for each of `days` steps, the same value with truncated
symmetric confidence bounds. -/
lemma generate_forecast_of_const (bio : List BioFRow) (days v : ℕ) (hv : 0 < v)
    (h14 : (last14 (dailyTotals bio)).map (fun x => x.2) = List.replicate 14 v) :
    generate_forecast true bio none days =
      Except.ok ((List.range days).map (fun j =>
        ({ date := lastDateOf bio + (((1 + j : ℕ) : ℕ) : ℚ), forecast := ((v : ℕ) : ℤ),
           lower_ci := truncQ (((v : ℕ) : ℚ) * (1 - uncertainty (1 + j))),
           upper_ci := truncQ (((v : ℕ) : ℚ) * (1 + uncertainty (1 + j))) } : ForecastPoint))) := by
  have hbione : bio ≠ [] := by
    intro hb
    subst hb
    simp [dailyTotals, dailyDates, dedup, sortLe, last14] at h14
  have hemp : bio.isEmpty = false := by
    cases bio with
    | nil => exact absurd rfl hbione
    | cons a l => rfl
  have hlen : (last14 (dailyTotals bio)).length = 14 := by
    have := congrArg List.length h14
    simpa using this
  have hge : generate_forecast true bio none days =
      forecastSteps (growthFactorOf bio) (lastDateOf bio) 1 days
        (PVal.num ((lastValOf bio : ℕ) : ℚ)) := by
    simp only [generate_forecast, stateFilter, hemp, hlen]
    norm_num
  rw [hge, growthFactor_of_const bio v hv h14, lastVal_of_const bio v h14,
    forecastSteps_one v (lastDateOf bio) days 1]

/-- C7 (amended): for a trailing window of 14 identical *positive* daily
totals `v`, the mean growth is 0, the growth factor is 1, every forecast
point's value is exactly `v`, and the uncertainty is strictly increasing
in the day index; at `v = 100` the day-1 point has uncertainty 0.06 and
band `[94, 106]`. -/
theorem forecast_constant_window (bio : List BioFRow) (days v : ℕ) (hv : 0 < v)
    (h14 : (last14 (dailyTotals bio)).map (fun x => x.2) = List.replicate 14 v) :
    avgGrowthOf bio = PVal.num 0 ∧
    growthFactorOf bio = PVal.num 1 ∧
    generate_forecast true bio none days =
      Except.ok ((List.range days).map (fun j =>
        ({ date := lastDateOf bio + (((1 + j : ℕ) : ℕ) : ℚ), forecast := ((v : ℕ) : ℤ),
           lower_ci := truncQ (((v : ℕ) : ℚ) * (1 - uncertainty (1 + j))),
           upper_ci := truncQ (((v : ℕ) : ℚ) * (1 + uncertainty (1 + j))) } : ForecastPoint))) ∧
    (∀ pts, generate_forecast true bio none days = Except.ok pts →
      ∀ p ∈ pts, p.forecast = ((v : ℕ) : ℤ)) ∧
    (∀ i j : ℕ, i < j → uncertainty i < uncertainty j) ∧
    uncertainty 1 = 6 / 100 ∧
    truncQ ((100 : ℚ) * (1 - uncertainty 1)) = 94 ∧
    truncQ ((100 : ℚ) * (1 + uncertainty 1)) = 106 := by
  refine ⟨avgGrowth_of_const bio v hv h14, growthFactor_of_const bio v hv h14,
    generate_forecast_of_const bio days v hv h14, ?_, ?_, ?_, ?_, ?_⟩
  · intro pts hpts p hp
    rw [generate_forecast_of_const bio days v hv h14] at hpts
    simp only [Except.ok.injEq] at hpts
    subst hpts
    rcases List.mem_map.mp hp with ⟨j, _, rfl⟩
    rfl
  · intro i j hij
    have hcast : (i : ℚ) < (j : ℚ) := by exact_mod_cast hij
    simp only [uncertainty]
    linarith
  · norm_num [uncertainty]
  · have h94 : (100 : ℚ) * (1 - uncertainty 1) = 94 := by norm_num [uncertainty]
    rw [h94, truncQ, if_pos (by norm_num : (0 : ℚ) ≤ 94),
      show (94 : ℚ) = ((94 : ℤ) : ℚ) by norm_num, Int.floor_intCast]
  · have h106 : (100 : ℚ) * (1 + uncertainty 1) = 106 := by norm_num [uncertainty]
    rw [h106, truncQ, if_pos (by norm_num : (0 : ℚ) ≤ 106),
      show (106 : ℚ) = ((106 : ℤ) : ℚ) by norm_num, Int.floor_intCast]

/-- Counterexample for C7: exactly 14 identical daily values `v = 0`
give a NaN mean growth (every percentage change is 0/0), not 0. -/
theorem avgGrowth_zero_window_nan :
    avgGrowthOf zb14 = PVal.nan ∧ PVal.nan ≠ PVal.num 0 :=
  ⟨zb14_avg_nan, by simp⟩

set_option maxHeartbeats 1000000 in
lemma cb14_daily : dailyTotals cb14 =
    [((0 : ℚ), 100), (1, 100), (2, 100), (3, 100), (4, 100), (5, 100), (6, 100), (7, 100),
     (8, 100), (9, 100), (10, 100), (11, 100), (12, 100), (13, 100)] := by
  have hfm : cb14.filterMap (fun r => r.date) =
      [(0 : ℚ), 1, 2, 3, 4, 5, 6, 7, 8, 9, 10, 11, 12, 13] := by
    norm_num [cb14, sampleB, List.filterMap_cons]
  have hded : dedup ([(0 : ℚ), 1, 2, 3, 4, 5, 6, 7, 8, 9, 10, 11, 12, 13]) =
      [(0 : ℚ), 1, 2, 3, 4, 5, 6, 7, 8, 9, 10, 11, 12, 13] := by
    norm_num [dedup]
  have hsort : sortLe (fun a b => decide (a ≤ b))
      ([(0 : ℚ), 1, 2, 3, 4, 5, 6, 7, 8, 9, 10, 11, 12, 13]) =
      [(0 : ℚ), 1, 2, 3, 4, 5, 6, 7, 8, 9, 10, 11, 12, 13] := by
    norm_num [sortLe, insertLe]
  have hdates : dailyDates cb14 =
      [(0 : ℚ), 1, 2, 3, 4, 5, 6, 7, 8, 9, 10, 11, 12, 13] := by
    rw [dailyDates, hfm, hded, hsort]
  simp only [dailyTotals, hdates, List.map_cons, List.map_nil]
  norm_num [dailySum, cb14, sampleB]

lemma cb14_vals : (last14 (dailyTotals cb14)).map (fun x => x.2) = List.replicate 14 100 := by
  rw [cb14_daily]
  rfl

lemma cb14_lastDate : lastDateOf cb14 = 13 := by
  rw [lastDateOf, cb14_daily]
  rfl

/-- Shared evaluation: the two-day forecast on the constant-100 window. -/
lemma cb14_forecast_eval : generate_forecast true cb14 none 2 =
    Except.ok
      [{ date := 14, forecast := 100, lower_ci := 94, upper_ci := 106 },
       { date := 15, forecast := 100, lower_ci := 93, upper_ci := 107 }] := by
  rw [generate_forecast_of_const cb14 2 100 (by norm_num) cb14_vals, cb14_lastDate]
  have h94 : truncQ ((100 : ℚ) * (1 - uncertainty 1)) = 94 := by
    rw [show (100 : ℚ) * (1 - uncertainty 1) = 94 by norm_num [uncertainty], truncQ,
      if_pos (by norm_num : (0 : ℚ) ≤ 94), show (94 : ℚ) = ((94 : ℤ) : ℚ) by norm_num,
      Int.floor_intCast]
  have h106 : truncQ ((100 : ℚ) * (1 + uncertainty 1)) = 106 := by
    rw [show (100 : ℚ) * (1 + uncertainty 1) = 106 by norm_num [uncertainty], truncQ,
      if_pos (by norm_num : (0 : ℚ) ≤ 106), show (106 : ℚ) = ((106 : ℤ) : ℚ) by norm_num,
      Int.floor_intCast]
  have h93 : truncQ ((100 : ℚ) * (1 - uncertainty 2)) = 93 := by
    rw [show (100 : ℚ) * (1 - uncertainty 2) = 93 by norm_num [uncertainty], truncQ,
      if_pos (by norm_num : (0 : ℚ) ≤ 93), show (93 : ℚ) = ((93 : ℤ) : ℚ) by norm_num,
      Int.floor_intCast]
  have h107 : truncQ ((100 : ℚ) * (1 + uncertainty 2)) = 107 := by
    rw [show (100 : ℚ) * (1 + uncertainty 2) = 107 by norm_num [uncertainty], truncQ,
      if_pos (by norm_num : (0 : ℚ) ≤ 107), show (107 : ℚ) = ((107 : ℤ) : ℚ) by norm_num,
      Int.floor_intCast]
  norm_num [List.range_succ, h94, h106, h93, h107]

/-- Witness for C7 (amended) at a concrete input: 14 dated rows with a
constant daily total of 100. -/
theorem forecast_constant_window_witness :
    avgGrowthOf cb14 = PVal.num 0 ∧ growthFactorOf cb14 = PVal.num 1 ∧
    uncertainty 1 = 6 / 100 :=
  ⟨(forecast_constant_window cb14 2 100 (by norm_num) cb14_vals).1,
   (forecast_constant_window cb14 2 100 (by norm_num) cb14_vals).2.1,
   (forecast_constant_window cb14 2 100 (by norm_num) cb14_vals).2.2.2.2.2.1⟩

/-- C8: every forecast point the Forecaster returns has
`lower_ci ≤ forecast ≤ upper_ci`. -/
theorem forecast_band_brackets (hasDate : Bool) (bio : List BioFRow) (stateF : Option String)
    (days : ℕ) (pts : List ForecastPoint)
    (h : generate_forecast hasDate bio stateF days = Except.ok pts) :
    ∀ p ∈ pts, p.lower_ci ≤ p.forecast ∧ p.forecast ≤ p.upper_ci := by
  intro p hp
  simp only [generate_forecast] at h
  by_cases h1 : ((stateFilter stateF bio).isEmpty || !hasDate) = true
  · rw [if_pos h1] at h
    simp only [Except.ok.injEq] at h
    subst h
    exact absurd hp (List.not_mem_nil p)
  · rw [if_neg h1] at h
    by_cases h2 : (last14 (dailyTotals (stateFilter stateF bio))).length < 14
    · rw [if_pos h2] at h
      simp only [Except.ok.injEq] at h
      subst h
      exact absurd hp (List.not_mem_nil p)
    · rw [if_neg h2] at h
      rcases growthFactorOf_shape (stateFilter stateF bio) with hgf | ⟨g, hgf, hg0⟩
      · rw [hgf] at h
        cases days with
        | zero =>
            simp only [forecastSteps, Except.ok.injEq] at h
            subst h
            exact absurd hp (List.not_mem_nil p)
        | succ n =>
            rw [forecastSteps_nan_gf] at h
            exact absurd h (by simp)
      · rw [hgf] at h
        exact forecastSteps_bounds g hg0 (lastDateOf (stateFilter stateF bio)) days 1
          ((lastValOf (stateFilter stateF bio) : ℕ) : ℚ) (Nat.cast_nonneg _) pts h p hp

/-- Witness for C8 at a concrete input: the two-day forecast on the
constant-100 window, checked on its first point. -/
theorem forecast_band_brackets_witness :
    generate_forecast true cb14 none 2 = Except.ok
      [{ date := 14, forecast := 100, lower_ci := 94, upper_ci := 106 },
       { date := 15, forecast := 100, lower_ci := 93, upper_ci := 107 }] ∧
    ((94 : ℤ) ≤ 100 ∧ (100 : ℤ) ≤ 106) :=
  ⟨cb14_forecast_eval,
   forecast_band_brackets true cb14 none 2 _ cb14_forecast_eval
     { date := 14, forecast := 100, lower_ci := 94, upper_ci := 106 }
     (List.mem_cons_self _ _)⟩

/-- On the main path (date column present, both halves non-empty) the
Backtest Validator returns exactly the record built from the stressed /
normal partition of T2 volumes. -/
lemma run_backtest_eq (bio : List BioFRow) (enrol : List EnrolRow)
    (h1 : t1Of bio ≠ []) (h2 : t2Of bio ≠ []) :
    run_backtest_validation true bio enrol =
      BacktestOutcome.result
        { is_valid := PVal.pgt (PVal.pmeanList (t2StressedVols bio enrol))
            (PVal.pmeanList (t2NormalVols bio enrol)),
          stressed_avg_t2 := PVal.pmeanList (t2StressedVols bio enrol),
          normal_avg_t2 := PVal.pmeanList (t2NormalVols bio enrol),
          lift := if PVal.pgt (PVal.pmeanList (t2NormalVols bio enrol)) (PVal.num 0) = true then
              PVal.pdiv (PVal.pmeanList (t2StressedVols bio enrol))
                (PVal.pmeanList (t2NormalVols bio enrol))
            else PVal.num 1 } := by
  have h1' := h1
  have h2' := h2
  simp only [t1Of] at h1'
  simp only [t2Of] at h2'
  have e1 : ((sortByDate bio).take ((sortByDate bio).length / 2)).isEmpty = false := by
    cases ht : (sortByDate bio).take ((sortByDate bio).length / 2) with
    | nil => exact absurd ht h1'
    | cons a l => rfl
  have e2 : ((sortByDate bio).drop ((sortByDate bio).length / 2)).isEmpty = false := by
    cases ht : (sortByDate bio).drop ((sortByDate bio).length / 2) with
    | nil => exact absurd ht h2'
    | cons a l => rfl
  unfold run_backtest_validation
  simp only [Bool.not_true, Bool.false_eq_true, if_false, e1, e2, Bool.or_self]
  rfl

/-- C5: on the main path the Backtest Validator's stressed set is the
T1 districts whose AUPS is at or above the 80th percentile of T1 AUPS;
`is_valid` compares the mean T2 volume over stressed districts with the
mean over the others, and `lift` is their ratio when the normal mean is
positive and 1.0 otherwise. -/
theorem backtest_stressed_vs_normal (bio : List BioFRow) (enrol : List EnrolRow)
    (h1 : t1Of bio ≠ []) (h2 : t2Of bio ≠ []) :
    ∃ res : ValidationResult,
      run_backtest_validation true bio enrol = BacktestOutcome.result res ∧
      res.is_valid = PVal.pgt (PVal.pmeanList (t2StressedVols bio enrol))
        (PVal.pmeanList (t2NormalVols bio enrol)) ∧
      res.stressed_avg_t2 = PVal.pmeanList (t2StressedVols bio enrol) ∧
      res.normal_avg_t2 = PVal.pmeanList (t2NormalVols bio enrol) ∧
      res.lift = (if PVal.pgt (PVal.pmeanList (t2NormalVols bio enrol)) (PVal.num 0) = true then
          PVal.pdiv (PVal.pmeanList (t2StressedVols bio enrol))
            (PVal.pmeanList (t2NormalVols bio enrol))
        else PVal.num 1) :=
  ⟨_, run_backtest_eq bio enrol h1 h2, rfl, rfl, rfl, rfl⟩

/-- C10: when the T1 stressed set is disjoint from T2's district keys,
the stressed-side mean is NaN (mean of an empty selection), `is_valid`
is False (a NaN comparison), and the function still returns a
ValidationResult. -/
theorem backtest_disjoint_stressed_nan (bio : List BioFRow) (enrol : List EnrolRow)
    (h1 : t1Of bio ≠ []) (h2 : t2Of bio ≠ [])
    (hdisj : ∀ k ∈ stressedSet bio enrol, k ∉ keysOf keyOfB (t2Of bio)) :
    ∃ res : ValidationResult,
      run_backtest_validation true bio enrol = BacktestOutcome.result res ∧
      res.stressed_avg_t2 = PVal.nan ∧
      res.is_valid = false := by
  have hfilter : (keysOf keyOfB (t2Of bio)).filter
      (fun k => decide (k ∈ stressedSet bio enrol)) = [] := by
    rw [List.filter_eq_nil_iff]
    intro k hk
    simp only [decide_eq_true_eq]
    intro hks
    exact hdisj k hks hk
  have hvols : t2StressedVols bio enrol = [] := by
    rw [t2StressedVols, hfilter]
    rfl
  refine ⟨_, run_backtest_eq bio enrol h1 h2, ?_, ?_⟩
  · show PVal.pmeanList (t2StressedVols bio enrol) = PVal.nan
    rw [hvols]
    rfl
  · show PVal.pgt (PVal.pmeanList (t2StressedVols bio enrol))
      (PVal.pmeanList (t2NormalVols bio enrol)) = false
    rw [hvols]
    show PVal.pgt PVal.nan _ = false
    exact PVal.pgt_nan_left _

lemma btbio_t1 : t1Of btbio = [sampleB "S" "A" (some 0) 5] := by
  norm_num [t1Of, sortByDate, sortLe, insertLe, btbio, sampleB]

lemma btbio_t2 : t2Of btbio = [sampleB "S" "B" (some 1) 7] := by
  norm_num [t2Of, sortByDate, sortLe, insertLe, btbio, sampleB]

/-- Witness for C5 at a concrete input. -/
theorem backtest_stressed_vs_normal_witness :
    ∃ res : ValidationResult,
      run_backtest_validation true btbio btenrol = BacktestOutcome.result res ∧
      res.is_valid = PVal.pgt (PVal.pmeanList (t2StressedVols btbio btenrol))
        (PVal.pmeanList (t2NormalVols btbio btenrol)) ∧
      res.stressed_avg_t2 = PVal.pmeanList (t2StressedVols btbio btenrol) ∧
      res.normal_avg_t2 = PVal.pmeanList (t2NormalVols btbio btenrol) ∧
      res.lift = (if PVal.pgt (PVal.pmeanList (t2NormalVols btbio btenrol)) (PVal.num 0) = true
        then PVal.pdiv (PVal.pmeanList (t2StressedVols btbio btenrol))
          (PVal.pmeanList (t2NormalVols btbio btenrol))
        else PVal.num 1) := by
  have h1 : t1Of btbio ≠ [] := by rw [btbio_t1]; simp
  have h2 : t2Of btbio ≠ [] := by rw [btbio_t2]; simp
  exact backtest_stressed_vs_normal btbio btenrol h1 h2

lemma btbio_t1_metrics : t1MetricsOf btbio btenrol = [btrow] := by
  rw [t1MetricsOf, btbio_t1]
  have hmean : meanDate [sampleB "S" "A" (some 0) 5] = some 0 := by
    norm_num [meanDate, datedDates, sampleB, List.filterMap_cons]
  have hrec : districtRecent [sampleB "S" "A" (some 0) 5] ("S", "A") = 0 := by
    simp only [districtRecent, hmean]
    norm_num [districtRecentAt, dGT, keyOfB, sampleB]
  have hpast : districtPast [sampleB "S" "A" (some 0) 5] ("S", "A") = 5 := by
    simp only [districtPast, hmean]
    norm_num [districtPastAt, dLE, keyOfB, sampleB]
  have hg : districtGrowth [sampleB "S" "A" (some 0) 5] ("S", "A") = -1 := by
    simp only [districtGrowth, hrec, hpast]
    norm_num
  have hsum : bioSum [sampleB "S" "A" (some 0) 5] ("S", "A") = 5 := by
    norm_num [bioSum, keyOfB, sampleB]
  have hekeys : keysOf keyOfE btenrol = [("S", "A")] := by
    norm_num [keysOf, keyOfE, btenrol, sampleE]
  have het : enrolTotal btenrol ("S", "A") = 10 := by
    norm_num [enrolTotal, keyOfE, btenrol, sampleE]
  have hbase : baseRow true [sampleB "S" "A" (some 0) 5] btenrol ("S", "A") = btrow0 := by
    simp only [baseRow, hg, hsum, hekeys, het]
    norm_num [clipQ, PVal.pdiv, PVal.pmul, btrow0]
  have hkeys : keysOf keyOfB [sampleB "S" "A" (some 0) 5] = [("S", "A")] := by
    norm_num [keysOf, keyOfB, sampleB]
  have hmb : metricsBase true [sampleB "S" "A" (some 0) 5] btenrol = [btrow0] := by
    simp only [metricsBase, hkeys, List.map_cons, List.map_nil, hbase]
  have hsort : sortByAUPSDesc [btrow0] = [btrow0] := by
    norm_num [sortByAUPSDesc, sortLe, insertLe]
  have hmax : maxAUPS true [sampleB "S" "A" (some 0) 5] btenrol = PVal.num 250 := by
    simp only [maxAUPS, hmb, hsort]
    norm_num [PVal.pmaxList, PVal.pmaxAux, PVal.isNan, btrow0]
  rw [cdm_eq_branches]
  simp only [hmax, hmb, hsort]
  norm_num [PVal.pgt, PVal.plt, PVal.pdiv, PVal.pmul, btrow0, btrow]

lemma btbio_threshold : t1Threshold btbio btenrol = PVal.num 250 := by
  rw [t1Threshold, btbio_t1_metrics]
  norm_num [quantileList, sortLe, insertLe, PVal.isNan, btrow]

lemma btbio_stressed : stressedSet btbio btenrol = [("S", "A")] := by
  rw [stressedSet, btbio_t1_metrics, btbio_threshold]
  norm_num [PVal.pge, PVal.ple, btrow]

/-- Witness for C10 at a concrete input: the single stressed T1 district
(district A) does not appear among T2's districts (only district B). -/
theorem backtest_disjoint_stressed_nan_witness :
    ∃ res : ValidationResult,
      run_backtest_validation true btbio btenrol = BacktestOutcome.result res ∧
      res.stressed_avg_t2 = PVal.nan ∧
      res.is_valid = false := by
  have h1 : t1Of btbio ≠ [] := by rw [btbio_t1]; simp
  have h2 : t2Of btbio ≠ [] := by rw [btbio_t2]; simp
  have ht2keys : keysOf keyOfB (t2Of btbio) = [("S", "B")] := by
    rw [btbio_t2]
    norm_num [keysOf, keyOfB, sampleB]
  have hdisj : ∀ k ∈ stressedSet btbio btenrol, k ∉ keysOf keyOfB (t2Of btbio) := by
    rw [btbio_stressed, ht2keys]
    intro k hk
    simp only [List.mem_singleton] at hk
    subst hk
    simp
  exact backtest_disjoint_stressed_nan btbio btenrol h1 h2 hdisj
